import Mathlib

/-!
Shallow embedding of the lighter-go session/transaction bridge.

The repository exposes the same core twice: once as a gomobile binding
(`package mobile`, file `src/unnamed/part_003`) and once as a js/wasm binding
(`src/sharedlib/sharedlib_wasm.go`).  Both keep a process-wide registry
`backupTxClients : map[slot]*client.TxClient` plus one active pointer
`txClient`, validate and shape caller arguments, and hand the shaped request
to the external signing engine (`github.com/elliottech/lighter-go/client`).

External collaborators are modelled as oracles:
  * the signing engine's per-kind transaction constructors are an `Engine`
    value: for each call it answers with a transaction object, an error, or a
    panic (Go code may panic inside the engine; every exported operation wraps
    its body in `defer recover()`, and a recovered panic makes the Go function
    return the zero value of its result type);
  * `client.NewTxClient` answers with a `ClientBehavior` (by the Go
    convention it returns a nil client alongside a non-nil error, so the
    assignment `txClient, err = client.NewTxClient(...)` overwrites the
    active pointer with nil on failure);
  * the remote `GetApiKey` lookup answers with an `ApiKeyBehavior`.

`json.Marshal` of a transaction object followed by `json.Unmarshal` into a
generic map is modelled as the identity on a key/value document; a Go string
is modelled by its byte list where byte length matters (memo), and machine
integer conversions (`uint8(x)` etc.) are explicit `% 2^w` operations.
-/

namespace LighterGo

/-- Go conversion `uint8(x)` on an integer: the low 8 bits. -/
def goUInt8 (n : Int) : Nat := (n % 256).toNat

/-- Go conversion `uint16(x)` on an integer: the low 16 bits. -/
def goUInt16 (n : Int) : Nat := (n % 65536).toNat

/-- Go conversion `uint32(x)` on an integer: the low 32 bits. -/
def goUInt32 (n : Int) : Nat := (n % 4294967296).toNat

/-- Go conversion `uint64(x)` on an integer: the low 64 bits. -/
def goUInt64 (n : Int) : Nat := (n % 18446744073709551616).toNat

/-- Value of one hexadecimal digit, as accepted by `encoding/hex`. -/
def hexDigitVal (c : Char) : Option Nat :=
  if '0' ≤ c ∧ c ≤ '9' then some (c.toNat - '0'.toNat)
  else if 'a' ≤ c ∧ c ≤ 'f' then some (c.toNat - 'a'.toNat + 10)
  else if 'A' ≤ c ∧ c ≤ 'F' then some (c.toNat - 'A'.toNat + 10)
  else none

/-- `encoding/hex.DecodeString` on a digit list: pairs of hex digits to
bytes; `none` on an odd length or a non-hex character. -/
def hexPairs : List Char → Option (List Nat)
  | [] => some []
  | [_] => none
  | hi :: lo :: rest =>
    match hexDigitVal hi, hexDigitVal lo, hexPairs rest with
    | some h, some l, some bs => some ((16 * h + l) :: bs)
    | _, _, _ => none

/-- Decode a bare (no 0x) hex string to bytes. -/
def decodeHexStr (s : String) : Option (List Nat) := hexPairs s.toList

/-- `hexutil.Decode` (go-ethereum): requires a non-empty input carrying a
`0x` or `0X` marker before the digits, then hex-decodes the digits. -/
def hexutilDecodeChars : List Char → Except String (List Nat)
  | [] => Except.error "empty hex string"
  | c0 :: c1 :: rest =>
    if c0 = '0' ∧ (c1 = 'x' ∨ c1 = 'X') then
      match hexPairs rest with
      | none => Except.error "invalid hex string"
      | some bs => Except.ok bs
    else Except.error "hex string without 0x prefix"
  | _ => Except.error "hex string without 0x prefix"

/-- `hexutil.Decode` on a string, via its character list. -/
def hexutilDecode (s : String) : Except String (List Nat) :=
  hexutilDecodeChars s.toList

/-- Lower-case hex character of a digit value. -/
def hexChar (n : Nat) : Char :=
  if n < 10 then Char.ofNat ('0'.toNat + n) else Char.ofNat ('a'.toNat + n - 10)

/-- Two lower-case hex characters of a byte. -/
def hexByteChars (b : Nat) : List Char := [hexChar (b / 16 % 16), hexChar (b % 16)]

/-- `hexutil.Encode` (lower-case hex) with the leading `0x` removed, as
computed by `strings.Replace(hexutil.Encode(b), "0x", "", 1)` in
`CheckClient` (hex digits never contain the character x, so the single
replacement removes exactly the marker). -/
def hexEncodeBare (bs : List Nat) : String :=
  String.mk (List.flatten (bs.map hexByteChars))

/-- Generic key/value document: the result of `json.Marshal` of the engine's
transaction object, viewed through `json.Unmarshal` into a Go map. -/
abbrev Doc := List (String × String)

/-- Whether a document carries a field of the given name. -/
def containsKey (d : Doc) (k : String) : Bool := d.any (fun p => p.1 == k)

/-- Go map update `obj[k] = v` on a document: replace the field if present,
otherwise add it. -/
def setField (d : Doc) (k v : String) : Doc :=
  if containsKey d k then d.map (fun p => if p.1 == k then (k, v) else p)
  else d ++ [(k, v)]

/-- The state captured by one `*client.TxClient`: a signing identity bound
to an account index, an API-key slot, a chain id, an endpoint, and the key
material (its derived public key bytes, `GetKeyManager().PubKeyBytes()`). -/
structure Session where
  accountIndex : Int
  apiKeyIndex : Nat
  chainId : Nat
  endpoint : String
  pubKeyBytes : List Nat
deriving DecidableEq, Repr

/-- The registry map `backupTxClients`.  The gomobile binding keys it by a
Go `int`, the wasm binding by `uint8`; an association list over `Int` keys
covers both (the wasm operations convert their argument with `uint8` first).
Insertion overwrites any prior entry at the same key. -/
abbrev SlotTable := List (Int × Session)

/-- Go map read `backupTxClients[k]` (comma-ok form yields `none` exactly
when the read yields the nil zero value). -/
def lookupSlot (t : SlotTable) (k : Int) : Option Session :=
  match t.find? (fun p => p.1 == k) with
  | some p => some p.2
  | none => none

/-- Go map write `backupTxClients[k] = s`. -/
def insertSlot (t : SlotTable) (k : Int) (s : Session) : SlotTable :=
  (k, s) :: t.filter (fun p => !(p.1 == k))

/-- The two process-wide globals: the registry map and the active pointer
`txClient` (nil modelled as `none`). -/
structure RegistryState where
  table : SlotTable
  active : Option Session
deriving DecidableEq, Repr

/-- `types.CreateOrderTxReq` as built by the bindings (the Go field `Type`
is rendered `OrderType` here since `Type` is reserved in Lean). -/
structure CreateOrderTxReq where
  MarketIndex : Nat
  ClientOrderIndex : Int
  BaseAmount : Int
  Price : Nat
  IsAsk : Nat
  OrderType : Nat
  TimeInForce : Nat
  ReduceOnly : Nat
  TriggerPrice : Nat
  OrderExpiry : Int
deriving DecidableEq, Repr

/-- The request object handed to the signing engine's per-kind transaction
constructor, one constructor per kind, fields exactly as the bindings fill
them in. -/
inductive EngineReq where
  | createOrder (req : CreateOrderTxReq)
  | createGroupedOrders (groupingType : Nat) (orders : List CreateOrderTxReq)
  | cancelOrder (marketIndex : Nat) (index : Int)
  | cancelAllOrders (timeInForce : Nat) (time : Int)
  | modifyOrder (marketIndex : Nat) (index baseAmount : Int) (price triggerPrice : Nat)
  | withdraw (usdcAmount : Nat)
  | transfer (toAccountIndex usdcAmount fee : Int) (memo : List Nat)
  | createSubAccount
  | changePubKey (pubKey : List Nat)
  | createPublicPool (operatorFee initialTotalShares minOperatorShareRate : Int)
  | updatePublicPool (publicPoolIndex : Int) (status : Nat) (operatorFee minOperatorShareRate : Int)
  | mintShares (publicPoolIndex shareAmount : Int)
  | burnShares (publicPoolIndex shareAmount : Int)
  | updateLeverage (marketIndex initialMarginFraction marginMode : Nat)
  | updateMargin (marketIndex : Nat) (usdcAmount : Int) (direction : Nat)
deriving DecidableEq, Repr

/-- The signing engine's answer: a signed transaction object exposing its
serialized document and (for the kinds that need one) the raw L1 signable
body `GetL1SignatureBody()`. -/
structure TxObject where
  doc : Doc
  l1Body : String
deriving DecidableEq, Repr

/-- Outcome of one engine transaction-constructor call. -/
inductive EngineBehavior where
  | ok (tx : TxObject)
  | fail (msg : String)
  | panicked (msg : String)
deriving DecidableEq, Repr

/-- Outcome of one `GetAuthToken` call. -/
inductive TokenBehavior where
  | ok (token : String)
  | fail (msg : String)
  | panicked (msg : String)
deriving DecidableEq, Repr

/-- Outcome of one `client.NewTxClient` call. -/
inductive ClientBehavior where
  | ok (s : Session)
  | fail (msg : String)
  | panicked (msg : String)
deriving DecidableEq, Repr

/-- One entry of the remote `GetApiKey` response (`key.ApiKeys[i]`). -/
structure RemoteApiKey where
  publicKey : String
deriving DecidableEq, Repr

/-- Outcome of one remote `HTTP().GetApiKey` call. -/
inductive ApiKeyBehavior where
  | ok (keys : List RemoteApiKey)
  | fail (msg : String)
  | panicked (msg : String)
deriving DecidableEq, Repr

/-- A record of one call that actually reached the signing engine, with the
session handle it was invoked on and the transact options (the optional
nonce override) it carried. -/
inductive EngineCall where
  | tx (s : Session) (req : EngineReq) (nonce : Option Int)
  | auth (s : Session) (deadline : Int)
deriving DecidableEq, Repr

/-- The signing engine oracle: per-kind transaction construction and auth
token issuance. -/
structure Engine where
  run : Session → EngineReq → Option Int → EngineBehavior
  authToken : Session → Int → TokenBehavior

/-- The wire result of a sign operation.  The Go `TxResult.JSON` string is
the serialization of this document; the zero value has an empty document. -/
structure TxResult where
  json : Doc
  error : String
deriving DecidableEq, Repr

/-- The wire result of `CreateAuthToken` (same Go record, but the JSON
field holds an opaque token string rather than a transaction document). -/
structure TokenResult where
  json : String
  error : String
deriving DecidableEq, Repr

/-- The nil-guard message of every mobile sign operation except
`SignUpdateMargin`. -/
def clientNotCreatedMsg : String := "client is not created, call CreateClient() first"

/-- The nil-guard message of `SignUpdateMargin` (capitalised differently in
the source). -/
def updateMarginNotCreatedMsg : String := "Client is not created, call CreateClient() first"

/-- The nil-guard message of the wasm sign operations (they name the
camel-case `createClient()` entry point). -/
def wasmClientNotCreatedMsg : String := "client is not created, call createClient() first"

/-- The memo length message of `SignTransfer`. -/
def memoLengthMsg : String := "memo expected to be 32 bytes long"

/-- Common tail of every non-augmented sign operation: call the engine's
transaction constructor with the shaped request and options, then
`json.Marshal` the transaction (modelled as its document).  The deferred
`recover()` turns an engine panic into the function's zero value: a nil
`*TxResult`, modelled as `none`. -/
def runTx (c : Session) (engine : Engine) (req : EngineReq) (ops : Option Int) :
    Option TxResult × List EngineCall :=
  match engine.run c req ops with
  | .panicked _ => (none, [EngineCall.tx c req ops])
  | .fail e => (some { json := [], error := e }, [EngineCall.tx c req ops])
  | .ok tx => (some { json := tx.doc, error := "" }, [EngineCall.tx c req ops])

/-- Common tail of `SignChangePubKey` and `SignTransfer`: as `runTx`, but
the marshalled document is reopened (`json.Unmarshal` into a map, the
identity on the document) and the field `MessageToSign` is set to the
engine-provided `GetL1SignatureBody()` before the final `json.Marshal`. -/
def runTxWithMessage (c : Session) (engine : Engine) (req : EngineReq) (ops : Option Int) :
    Option TxResult × List EngineCall :=
  match engine.run c req ops with
  | .panicked _ => (none, [EngineCall.tx c req ops])
  | .fail e => (some { json := [], error := e }, [EngineCall.tx c req ops])
  | .ok tx =>
    (some { json := setField tx.doc "MessageToSign" tx.l1Body, error := "" },
     [EngineCall.tx c req ops])

/-- A JSON value inside one grouped-order object, as seen through
`json.Unmarshal` into `map[string]interface{}`: the type assertion
`.(float64)` succeeds exactly on numbers (numbers are modelled by integers;
no claim exercises fractional values). -/
inductive JVal where
  | num (n : Int)
  | other
deriving DecidableEq, Repr

/-- One element of the grouped-orders JSON array. -/
abbrev OrderDoc := List (String × JVal)

/-- `orderData[k].(float64)` in comma-ok form. -/
def getNum (d : OrderDoc) (k : String) : Option Int :=
  match d.find? (fun p => p.1 == k) with
  | some (_, JVal.num n) => some n
  | _ => none

/-- The conversion loop of `SignCreateGroupedOrders`: each sub-order must
carry the seven mandatory numeric fields (first missing one aborts with an
error naming the index and the field); `reduceOnly` and `triggerPrice`
default to 0, `orderExpiry` defaults to the sentinel -1, and a sentinel
expiry resolves to now + 28 days in milliseconds, per sub-order. -/
def convertOrders (nowMilli : Int) (i : Nat) :
    List OrderDoc → Except String (List CreateOrderTxReq)
  | [] => Except.ok []
  | d :: rest =>
    match getNum d "marketIndex" with
    | none => Except.error ("order " ++ toString i ++ ": marketIndex is required")
    | some marketIndex =>
    match getNum d "clientOrderIndex" with
    | none => Except.error ("order " ++ toString i ++ ": clientOrderIndex is required")
    | some clientOrderIndex =>
    match getNum d "baseAmount" with
    | none => Except.error ("order " ++ toString i ++ ": baseAmount is required")
    | some baseAmount =>
    match getNum d "price" with
    | none => Except.error ("order " ++ toString i ++ ": price is required")
    | some price =>
    match getNum d "isAsk" with
    | none => Except.error ("order " ++ toString i ++ ": isAsk is required")
    | some isAsk =>
    match getNum d "type" with
    | none => Except.error ("order " ++ toString i ++ ": type is required")
    | some orderType =>
    match getNum d "timeInForce" with
    | none => Except.error ("order " ++ toString i ++ ": timeInForce is required")
    | some timeInForce =>
      let reduceOnly := match getNum d "reduceOnly" with
        | some ro => goUInt8 ro
        | none => 0
      let triggerPrice := match getNum d "triggerPrice" with
        | some tp => goUInt32 tp
        | none => 0
      let orderExpiry0 := match getNum d "orderExpiry" with
        | some oe => oe
        | none => (-1 : Int)
      let orderExpiry := if orderExpiry0 = -1 then nowMilli + 28 * 24 * 60 * 60 * 1000 else orderExpiry0
      match convertOrders nowMilli (i + 1) rest with
      | Except.error e => Except.error e
      | Except.ok os =>
        Except.ok ({ MarketIndex := goUInt8 marketIndex,
                     ClientOrderIndex := clientOrderIndex,
                     BaseAmount := baseAmount,
                     Price := goUInt32 price,
                     IsAsk := goUInt8 isAsk,
                     OrderType := goUInt8 orderType,
                     TimeInForce := goUInt8 timeInForce,
                     ReduceOnly := reduceOnly,
                     TriggerPrice := triggerPrice,
                     OrderExpiry := orderExpiry } :: os)

namespace Mobile

/-- `CreateClient` of the gomobile binding.  The engine oracle's answer for
this single `client.NewTxClient` call is the explicit `engine` argument.  A
recovered panic makes the Go function return its zero value (the empty
string) with the globals untouched; an engine error leaves the map alone
but has already overwritten the active pointer with the nil client returned
alongside the error. -/
def CreateClient (st : RegistryState) (url privateKey : String) (chainId : Nat)
    (apiKeyIndex : Int) (accountIndex : Int) (engine : ClientBehavior) :
    RegistryState × String :=
  if accountIndex ≤ 0 then
    (st, "invalid account index")
  else
    match engine with
    | .panicked _ => (st, "")
    | .fail e => ({ st with active := none }, "error occurred when creating TxClient. err: " ++ e)
    | .ok s => ({ table := insertSlot st.table apiKeyIndex s, active := some s }, "")

/-- `CheckClient` of the gomobile binding.  The remote `GetApiKey` answer is
the `remote` argument; `key.ApiKeys[0]` on an empty response panics
(index out of range), and the deferred recover then returns the zero string.
The registered key's public key is compared as a string against the local
key's bare lower-case hex encoding. -/
def CheckClient (st : RegistryState) (apiKeyIndex : Int) (accountIndex : Int)
    (remote : ApiKeyBehavior) : String :=
  match lookupSlot st.table apiKeyIndex with
  | none => "api key not registered"
  | some client =>
    if client.apiKeyIndex ≠ goUInt8 apiKeyIndex then
      "apiKeyIndex does not match. expected " ++ toString client.apiKeyIndex ++
        " but got " ++ toString apiKeyIndex
    else if client.accountIndex ≠ accountIndex then
      "accountIndex does not match. expected " ++ toString client.accountIndex ++
        " but got " ++ toString accountIndex
    else
      match remote with
      | .panicked _ => ""
      | .fail e => "failed to get Api Keys. err: " ++ e
      | .ok [] => ""
      | .ok (ak :: _) =>
        let pubKeyStr := hexEncodeBare client.pubKeyBytes
        if ak.publicKey ≠ pubKeyStr then
          "private key does not match the one on Lighter. ownPubKey: " ++ pubKeyStr ++
            " response: " ++ ak.publicKey
        else ""

/-- `SignChangePubKey` of the gomobile binding. -/
def SignChangePubKey (txClient : Option Session) (engine : Engine)
    (pubKey : String) (nonce : Int) : Option TxResult × List EngineCall :=
  match txClient with
  | none => (some { json := [], error := clientNotCreatedMsg }, [])
  | some c =>
    match hexutilDecode pubKey with
    | .error e => (some { json := [], error := e }, [])
    | .ok pubKeyBytes =>
      if pubKeyBytes.length ≠ 40 then
        (some { json := [],
                error := "invalid pub key length. expected 40 but got " ++
                  toString pubKeyBytes.length }, [])
      else
        let ops : Option Int := if nonce = -1 then none else some nonce
        runTxWithMessage c engine (EngineReq.changePubKey pubKeyBytes) ops

/-- `SignCreateOrder` of the gomobile binding; `nowMilli` is the build-time
clock reading `time.Now().UnixMilli()`. -/
def SignCreateOrder (txClient : Option Session) (engine : Engine) (nowMilli : Int)
    (marketIndex clientOrderIndex baseAmount price isAsk orderType timeInForce
     reduceOnly triggerPrice orderExpiry nonce : Int) :
    Option TxResult × List EngineCall :=
  match txClient with
  | none => (some { json := [], error := clientNotCreatedMsg }, [])
  | some c =>
    let orderExpiry1 := if orderExpiry = -1 then nowMilli + 28 * 24 * 60 * 60 * 1000 else orderExpiry
    let req := EngineReq.createOrder {
      MarketIndex := goUInt8 marketIndex,
      ClientOrderIndex := clientOrderIndex,
      BaseAmount := baseAmount,
      Price := goUInt32 price,
      IsAsk := goUInt8 isAsk,
      OrderType := goUInt8 orderType,
      TimeInForce := goUInt8 timeInForce,
      ReduceOnly := goUInt8 reduceOnly,
      TriggerPrice := goUInt32 triggerPrice,
      OrderExpiry := orderExpiry1 }
    let ops : Option Int := if nonce = -1 then none else some nonce
    runTx c engine req ops

/-- `SignCreateGroupedOrders` of the gomobile binding; `ordersJSON` is the
`json.Unmarshal` reading of the caller's string (`Except.error` when the
string is not a JSON array of objects). -/
def SignCreateGroupedOrders (txClient : Option Session) (engine : Engine)
    (nowMilli : Int) (groupingType : Int) (ordersJSON : Except String (List OrderDoc))
    (nonce : Int) : Option TxResult × List EngineCall :=
  match txClient with
  | none => (some { json := [], error := clientNotCreatedMsg }, [])
  | some c =>
    match ordersJSON with
    | .error e => (some { json := [], error := "failed to parse orders JSON: " ++ e }, [])
    | .ok ordersData =>
      match convertOrders nowMilli 0 ordersData with
      | .error e => (some { json := [], error := e }, [])
      | .ok orders =>
        let ops : Option Int := if nonce = -1 then none else some nonce
        runTx c engine (EngineReq.createGroupedOrders (goUInt8 groupingType) orders) ops

/-- `SignCancelOrder` of the gomobile binding. -/
def SignCancelOrder (txClient : Option Session) (engine : Engine)
    (marketIndex orderIndex nonce : Int) : Option TxResult × List EngineCall :=
  match txClient with
  | none => (some { json := [], error := clientNotCreatedMsg }, [])
  | some c =>
    let ops : Option Int := if nonce = -1 then none else some nonce
    runTx c engine (EngineReq.cancelOrder (goUInt8 marketIndex) orderIndex) ops

/-- `SignWithdraw` of the gomobile binding. -/
def SignWithdraw (txClient : Option Session) (engine : Engine)
    (usdcAmount nonce : Int) : Option TxResult × List EngineCall :=
  match txClient with
  | none => (some { json := [], error := clientNotCreatedMsg }, [])
  | some c =>
    let ops : Option Int := if nonce = -1 then none else some nonce
    runTx c engine (EngineReq.withdraw (goUInt64 usdcAmount)) ops

/-- `SignCreateSubAccount` of the gomobile binding. -/
def SignCreateSubAccount (txClient : Option Session) (engine : Engine)
    (nonce : Int) : Option TxResult × List EngineCall :=
  match txClient with
  | none => (some { json := [], error := clientNotCreatedMsg }, [])
  | some c =>
    let ops : Option Int := if nonce = -1 then none else some nonce
    runTx c engine EngineReq.createSubAccount ops

/-- `SignCancelAllOrders` of the gomobile binding. -/
def SignCancelAllOrders (txClient : Option Session) (engine : Engine)
    (timeInForce time nonce : Int) : Option TxResult × List EngineCall :=
  match txClient with
  | none => (some { json := [], error := clientNotCreatedMsg }, [])
  | some c =>
    let ops : Option Int := if nonce = -1 then none else some nonce
    runTx c engine (EngineReq.cancelAllOrders (goUInt8 timeInForce) time) ops

/-- `SignModifyOrder` of the gomobile binding. -/
def SignModifyOrder (txClient : Option Session) (engine : Engine)
    (marketIndex index baseAmount price triggerPrice nonce : Int) :
    Option TxResult × List EngineCall :=
  match txClient with
  | none => (some { json := [], error := clientNotCreatedMsg }, [])
  | some c =>
    let ops : Option Int := if nonce = -1 then none else some nonce
    runTx c engine
      (EngineReq.modifyOrder (goUInt8 marketIndex) index baseAmount
        (goUInt32 price) (goUInt32 triggerPrice)) ops

/-- `SignTransfer` of the gomobile binding; `memo` is the byte list of the
caller's Go string (`len(memo)` is its byte length, and the 32-byte array is
filled from exactly those bytes). -/
def SignTransfer (txClient : Option Session) (engine : Engine)
    (toAccountIndex usdcAmount fee : Int) (memo : List Nat) (nonce : Int) :
    Option TxResult × List EngineCall :=
  match txClient with
  | none => (some { json := [], error := clientNotCreatedMsg }, [])
  | some c =>
    if memo.length ≠ 32 then
      (some { json := [], error := memoLengthMsg }, [])
    else
      let ops : Option Int := if nonce = -1 then none else some nonce
      runTxWithMessage c engine (EngineReq.transfer toAccountIndex usdcAmount fee memo) ops

/-- `SignCreatePublicPool` of the gomobile binding. -/
def SignCreatePublicPool (txClient : Option Session) (engine : Engine)
    (operatorFee initialTotalShares minOperatorShareRate nonce : Int) :
    Option TxResult × List EngineCall :=
  match txClient with
  | none => (some { json := [], error := clientNotCreatedMsg }, [])
  | some c =>
    let ops : Option Int := if nonce = -1 then none else some nonce
    runTx c engine
      (EngineReq.createPublicPool operatorFee initialTotalShares minOperatorShareRate) ops

/-- `SignUpdatePublicPool` of the gomobile binding. -/
def SignUpdatePublicPool (txClient : Option Session) (engine : Engine)
    (publicPoolIndex status operatorFee minOperatorShareRate nonce : Int) :
    Option TxResult × List EngineCall :=
  match txClient with
  | none => (some { json := [], error := clientNotCreatedMsg }, [])
  | some c =>
    let ops : Option Int := if nonce = -1 then none else some nonce
    runTx c engine
      (EngineReq.updatePublicPool publicPoolIndex (goUInt8 status) operatorFee
        minOperatorShareRate) ops

/-- `SignMintShares` of the gomobile binding. -/
def SignMintShares (txClient : Option Session) (engine : Engine)
    (publicPoolIndex shareAmount nonce : Int) : Option TxResult × List EngineCall :=
  match txClient with
  | none => (some { json := [], error := clientNotCreatedMsg }, [])
  | some c =>
    let ops : Option Int := if nonce = -1 then none else some nonce
    runTx c engine (EngineReq.mintShares publicPoolIndex shareAmount) ops

/-- `SignBurnShares` of the gomobile binding. -/
def SignBurnShares (txClient : Option Session) (engine : Engine)
    (publicPoolIndex shareAmount nonce : Int) : Option TxResult × List EngineCall :=
  match txClient with
  | none => (some { json := [], error := clientNotCreatedMsg }, [])
  | some c =>
    let ops : Option Int := if nonce = -1 then none else some nonce
    runTx c engine (EngineReq.burnShares publicPoolIndex shareAmount) ops

/-- `SignUpdateLeverage` of the gomobile binding. -/
def SignUpdateLeverage (txClient : Option Session) (engine : Engine)
    (marketIndex initialMarginFraction marginMode nonce : Int) :
    Option TxResult × List EngineCall :=
  match txClient with
  | none => (some { json := [], error := clientNotCreatedMsg }, [])
  | some c =>
    let ops : Option Int := if nonce = -1 then none else some nonce
    runTx c engine
      (EngineReq.updateLeverage (goUInt8 marketIndex) (goUInt16 initialMarginFraction)
        (goUInt8 marginMode)) ops

/-- `SignUpdateMargin` of the gomobile binding (note its differently
capitalised nil-guard message). -/
def SignUpdateMargin (txClient : Option Session) (engine : Engine)
    (marketIndex usdcAmount direction nonce : Int) :
    Option TxResult × List EngineCall :=
  match txClient with
  | none => (some { json := [], error := updateMarginNotCreatedMsg }, [])
  | some c =>
    let ops : Option Int := if nonce = -1 then none else some nonce
    runTx c engine
      (EngineReq.updateMargin (goUInt8 marketIndex) usdcAmount (goUInt8 direction)) ops

/-- `CreateAuthToken` of the gomobile binding; `nowSec` is the build-time
clock reading `time.Now().Unix()`.  The engine call `GetAuthToken` receives
the absolute deadline `time.Unix(deadline, 0)`. -/
def CreateAuthToken (txClient : Option Session) (engine : Engine)
    (nowSec : Int) (deadline : Int) : Option TokenResult × List EngineCall :=
  match txClient with
  | none => (some { json := "", error := clientNotCreatedMsg }, [])
  | some c =>
    let deadline1 := if deadline = 0 then nowSec + 7 * 60 * 60 else deadline
    match engine.authToken c deadline1 with
    | .panicked _ => (none, [EngineCall.auth c deadline1])
    | .fail e => (some { json := "", error := e }, [EngineCall.auth c deadline1])
    | .ok tok => (some { json := tok, error := "" }, [EngineCall.auth c deadline1])

/-- `SwitchAPIKey` of the gomobile binding: the map read is assigned to the
active pointer before the nil check, so a miss leaves the active pointer
holding the nil zero value. -/
def SwitchAPIKey (st : RegistryState) (apiKeyIndex : Int) : RegistryState × String :=
  match lookupSlot st.table apiKeyIndex with
  | none => ({ st with active := none }, "no client initialized for api key")
  | some c => ({ st with active := some c }, "")

end Mobile

namespace Wasm

/-- `createClient` of the js/wasm binding: identical to the gomobile one
except that the slot is the `uint8` conversion of the js argument and an
engine error is reported verbatim (`err.Error()` without a wrapper). -/
def createClient (st : RegistryState) (url privateKey : String) (chainId : Nat)
    (apiKeyIndexArg : Int) (accountIndex : Int) (engine : ClientBehavior) :
    RegistryState × String :=
  let apiKeyIndex : Int := Int.ofNat (goUInt8 apiKeyIndexArg)
  if accountIndex ≤ 0 then
    (st, "invalid account index")
  else
    match engine with
    | .panicked _ => (st, "")
    | .fail e => ({ st with active := none }, e)
    | .ok s => ({ table := insertSlot st.table apiKeyIndex s, active := some s }, "")

/-- `checkClient` of the js/wasm binding: same comparison logic as the
gomobile `CheckClient`, on the `uint8` conversion of the slot argument. -/
def checkClient (st : RegistryState) (apiKeyIndexArg : Int) (accountIndex : Int)
    (remote : ApiKeyBehavior) : String :=
  let apiKeyIndex : Int := Int.ofNat (goUInt8 apiKeyIndexArg)
  match lookupSlot st.table apiKeyIndex with
  | none => "api key not registered"
  | some client =>
    if client.apiKeyIndex ≠ goUInt8 apiKeyIndexArg then
      "apiKeyIndex does not match. expected " ++ toString client.apiKeyIndex ++
        " but got " ++ toString apiKeyIndexArg
    else if client.accountIndex ≠ accountIndex then
      "accountIndex does not match. expected " ++ toString client.accountIndex ++
        " but got " ++ toString accountIndex
    else
      match remote with
      | .panicked _ => ""
      | .fail e => "failed to get Api Keys. err: " ++ e
      | .ok [] => ""
      | .ok (ak :: _) =>
        let pubKeyStr := hexEncodeBare client.pubKeyBytes
        if ak.publicKey ≠ pubKeyStr then
          "private key does not match the one on Lighter. ownPubKey: " ++ pubKeyStr ++
            " response: " ++ ak.publicKey
        else ""

/-- `signCreateOrder` of the js/wasm binding (machine conversions applied to
the js arguments, then the same construction as the gomobile binding). -/
def signCreateOrder (txClient : Option Session) (engine : Engine) (nowMilli : Int)
    (marketIndex clientOrderIndex baseAmount price isAsk orderType timeInForce
     reduceOnly triggerPrice orderExpiry nonce : Int) :
    Option TxResult × List EngineCall :=
  match txClient with
  | none => (some { json := [], error := wasmClientNotCreatedMsg }, [])
  | some c =>
    let orderExpiry1 := if orderExpiry = -1 then nowMilli + 28 * 24 * 60 * 60 * 1000 else orderExpiry
    let req := EngineReq.createOrder {
      MarketIndex := goUInt8 marketIndex,
      ClientOrderIndex := clientOrderIndex,
      BaseAmount := baseAmount,
      Price := goUInt32 price,
      IsAsk := goUInt8 isAsk,
      OrderType := goUInt8 orderType,
      TimeInForce := goUInt8 timeInForce,
      ReduceOnly := goUInt8 reduceOnly,
      TriggerPrice := goUInt32 triggerPrice,
      OrderExpiry := orderExpiry1 }
    let ops : Option Int := if nonce = -1 then none else some nonce
    runTx c engine req ops

/-- `switchAPIKey` of the js/wasm binding: comma-ok lookup first, so a miss
leaves both globals untouched. -/
def switchAPIKey (st : RegistryState) (apiKeyIndexArg : Int) : RegistryState × String :=
  let apiKeyIndex : Int := Int.ofNat (goUInt8 apiKeyIndexArg)
  match lookupSlot st.table apiKeyIndex with
  | none => (st, "api key not registered")
  | some c => ({ st with active := some c }, "")

end Wasm

/-- One registry-mutating call, by either binding: an open-session call
(whose single engine outcome is carried in the operation) or a
switch-active call. -/
inductive RegistryOp where
  | openMobile (url privateKey : String) (chainId : Nat) (apiKeyIndex accountIndex : Int)
      (engine : ClientBehavior)
  | openWasm (url privateKey : String) (chainId : Nat) (apiKeyIndex accountIndex : Int)
      (engine : ClientBehavior)
  | switchMobile (apiKeyIndex : Int)
  | switchWasm (apiKeyIndex : Int)

/-- Effect of one registry-mutating call on the process-wide globals. -/
def applyOp (st : RegistryState) : RegistryOp → RegistryState
  | .openMobile url pk cid k a e => (Mobile.CreateClient st url pk cid k a e).1
  | .openWasm url pk cid k a e => (Wasm.createClient st url pk cid k a e).1
  | .switchMobile k => (Mobile.SwitchAPIKey st k).1
  | .switchWasm k => (Wasm.switchAPIKey st k).1

/-- The globals at process start: empty (nil) map, nil active pointer. -/
def initialState : RegistryState := { table := [], active := none }

/-- The globals after a sequence of registry-mutating calls. -/
def runOps (ops : List RegistryOp) : RegistryState := ops.foldl applyOp initialState

/-- The registry invariant: a set active pointer equals a value currently
present in the slot mapping. -/
def ActiveInTable (st : RegistryState) : Prop :=
  ∀ s, st.active = some s → ∃ k, lookupSlot st.table k = some s

/-- The nonce override carried by an engine call (auth-token calls carry
none). -/
def callNonce : EngineCall → Option Int
  | .tx _ _ ops => ops
  | .auth _ _ => none

/-- The order expiry carried by an engine call, when it is a create-order
call. -/
def callOrderExpiry : EngineCall → Option Int
  | .tx _ (.createOrder req) _ => some req.OrderExpiry
  | _ => none

/-- The absolute deadline carried by an engine call, when it is an
auth-token call. -/
def callDeadline : EngineCall → Option Int
  | .auth _ d => some d
  | _ => none

/-- The error string visible to the host from an optional result (a nil
result shows no error string at all). -/
def resultError : Option TxResult → String
  | some r => r.error
  | none => ""

/-- A concrete session used to instantiate universally quantified
statements. -/
def s1 : Session :=
  { accountIndex := 7, apiKeyIndex := 2, chainId := 1, endpoint := "http",
    pubKeyBytes := [171] }

/-- An engine that always succeeds with an empty transaction object. -/
def okEngine : Engine :=
  { run := fun _ _ _ => .ok { doc := [], l1Body := "" },
    authToken := fun _ _ => .ok "tok" }

/-- An engine whose every call panics. -/
def panicEngine : Engine :=
  { run := fun _ _ _ => .panicked "boom",
    authToken := fun _ _ => .panicked "boom" }

/-- A 32-byte memo. -/
def memo32 : List Nat := List.replicate 32 0

/-- A hex string decoding to 40 zero bytes. -/
def pk40hex : String := "0x" ++ String.mk (List.replicate 80 '0')

/-- A registry holding one session, registered at slot 1 and active. -/
def stOne : RegistryState := { table := [(1, s1)], active := some s1 }

/-- A session whose recorded slot is 3 and account index 1, with a single
public-key byte 0xab. -/
def sC9 : Session :=
  { accountIndex := 1, apiKeyIndex := 3, chainId := 1, endpoint := "e",
    pubKeyBytes := [171] }

/-- A registry holding `sC9` at slot 3, active. -/
def stC9 : RegistryState := { table := [(3, sC9)], active := some sC9 }

/-! ### Helper lemmas -/

theorem runTx_calls (c : Session) (engine : Engine) (req : EngineReq) (ops : Option Int) :
    (runTx c engine req ops).2 = [EngineCall.tx c req ops] := by
  cases hE : engine.run c req ops <;> simp [runTx, hE]

theorem runTxWithMessage_calls (c : Session) (engine : Engine) (req : EngineReq)
    (ops : Option Int) :
    (runTxWithMessage c engine req ops).2 = [EngineCall.tx c req ops] := by
  cases hE : engine.run c req ops <;> simp [runTxWithMessage, hE]

theorem runTx_inv (c : Session) (engine : Engine) (req : EngineReq) (ops : Option Int)
    (r : TxResult) (t : List EngineCall)
    (hfail : engine.run c req ops ≠ EngineBehavior.fail "")
    (heq : runTx c engine req ops = (some r, t)) (herr : r.error = "") :
    ∃ tx, engine.run c req ops = EngineBehavior.ok tx ∧
      r = { json := tx.doc, error := "" } ∧ t = [EngineCall.tx c req ops] := by
  cases hE : engine.run c req ops with
  | panicked m => simp [runTx, hE] at heq
  | fail e =>
    simp only [runTx, hE] at heq
    injection heq with h1 h2
    injection h1 with h1
    subst h1
    simp only [] at herr
    subst herr
    exact absurd hE hfail
  | ok tx =>
    simp only [runTx, hE] at heq
    injection heq with h1 h2
    injection h1 with h1
    exact ⟨tx, rfl, h1.symm, h2.symm⟩

theorem runTxWithMessage_inv (c : Session) (engine : Engine) (req : EngineReq)
    (ops : Option Int) (r : TxResult) (t : List EngineCall)
    (hfail : engine.run c req ops ≠ EngineBehavior.fail "")
    (heq : runTxWithMessage c engine req ops = (some r, t)) (herr : r.error = "") :
    ∃ tx, engine.run c req ops = EngineBehavior.ok tx ∧
      r = { json := setField tx.doc "MessageToSign" tx.l1Body, error := "" } ∧
      t = [EngineCall.tx c req ops] := by
  cases hE : engine.run c req ops with
  | panicked m => simp [runTxWithMessage, hE] at heq
  | fail e =>
    simp only [runTxWithMessage, hE] at heq
    injection heq with h1 h2
    injection h1 with h1
    subst h1
    simp only [] at herr
    subst herr
    exact absurd hE hfail
  | ok tx =>
    simp only [runTxWithMessage, hE] at heq
    injection heq with h1 h2
    injection h1 with h1
    exact ⟨tx, rfl, h1.symm, h2.symm⟩

theorem containsKey_setField (d : Doc) (k v : String) :
    containsKey (setField d k v) k = true := by
  by_cases h : containsKey d k
  · simp only [setField, h, if_true]
    simp only [containsKey, List.any_map, List.any_eq_true] at h ⊢
    obtain ⟨p, hp, he⟩ := h
    exact ⟨p, hp, by simp [Function.comp, he]⟩
  · simp only [setField, h, if_false]
    simp [containsKey]

theorem str_append_ne_empty (a b : String) (h : a ≠ "") : a ++ b ≠ "" := by
  intro hab
  apply h
  have hd : a.data ++ b.data = ([] : List Char) := by
    rw [← String.data_append, hab]
  rcases List.append_eq_nil.mp hd with ⟨ha, _⟩
  exact String.ext ha

theorem lookupSlot_insertSlot_self (t : SlotTable) (k : Int) (s : Session) :
    lookupSlot (insertSlot t k s) k = some s := by
  simp [lookupSlot, insertSlot, List.find?]

/-! ### Claims -/

/-- C3: every build operation (and `CreateAuthToken`) invoked while the
active pointer is nil returns its fixed no-active-session error with an
empty payload and performs no signing-engine call, for every input — in
particular the nil check short-circuits before any field validation (the
equalities hold even for undecodable pub keys, bad memos, or unparsable
grouped-order documents). -/
theorem c3_no_active_session_short_circuit :
    (∀ (engine : Engine) (pubKey : String) (nonce : Int),
      Mobile.SignChangePubKey none engine pubKey nonce =
        (some { json := [], error := clientNotCreatedMsg }, [])) ∧
    (∀ (engine : Engine)
        (nowMilli marketIndex clientOrderIndex baseAmount price isAsk orderType
         timeInForce reduceOnly triggerPrice orderExpiry nonce : Int),
      Mobile.SignCreateOrder none engine nowMilli marketIndex clientOrderIndex
          baseAmount price isAsk orderType timeInForce reduceOnly triggerPrice
          orderExpiry nonce =
        (some { json := [], error := clientNotCreatedMsg }, [])) ∧
    (∀ (engine : Engine) (nowMilli groupingType : Int)
        (ordersJSON : Except String (List OrderDoc)) (nonce : Int),
      Mobile.SignCreateGroupedOrders none engine nowMilli groupingType ordersJSON nonce =
        (some { json := [], error := clientNotCreatedMsg }, [])) ∧
    (∀ (engine : Engine) (marketIndex orderIndex nonce : Int),
      Mobile.SignCancelOrder none engine marketIndex orderIndex nonce =
        (some { json := [], error := clientNotCreatedMsg }, [])) ∧
    (∀ (engine : Engine) (usdcAmount nonce : Int),
      Mobile.SignWithdraw none engine usdcAmount nonce =
        (some { json := [], error := clientNotCreatedMsg }, [])) ∧
    (∀ (engine : Engine) (nonce : Int),
      Mobile.SignCreateSubAccount none engine nonce =
        (some { json := [], error := clientNotCreatedMsg }, [])) ∧
    (∀ (engine : Engine) (timeInForce time nonce : Int),
      Mobile.SignCancelAllOrders none engine timeInForce time nonce =
        (some { json := [], error := clientNotCreatedMsg }, [])) ∧
    (∀ (engine : Engine) (marketIndex index baseAmount price triggerPrice nonce : Int),
      Mobile.SignModifyOrder none engine marketIndex index baseAmount price
          triggerPrice nonce =
        (some { json := [], error := clientNotCreatedMsg }, [])) ∧
    (∀ (engine : Engine) (toAccountIndex usdcAmount fee : Int) (memo : List Nat)
        (nonce : Int),
      Mobile.SignTransfer none engine toAccountIndex usdcAmount fee memo nonce =
        (some { json := [], error := clientNotCreatedMsg }, [])) ∧
    (∀ (engine : Engine) (operatorFee initialTotalShares minOperatorShareRate nonce : Int),
      Mobile.SignCreatePublicPool none engine operatorFee initialTotalShares
          minOperatorShareRate nonce =
        (some { json := [], error := clientNotCreatedMsg }, [])) ∧
    (∀ (engine : Engine) (publicPoolIndex status operatorFee minOperatorShareRate nonce : Int),
      Mobile.SignUpdatePublicPool none engine publicPoolIndex status operatorFee
          minOperatorShareRate nonce =
        (some { json := [], error := clientNotCreatedMsg }, [])) ∧
    (∀ (engine : Engine) (publicPoolIndex shareAmount nonce : Int),
      Mobile.SignMintShares none engine publicPoolIndex shareAmount nonce =
        (some { json := [], error := clientNotCreatedMsg }, [])) ∧
    (∀ (engine : Engine) (publicPoolIndex shareAmount nonce : Int),
      Mobile.SignBurnShares none engine publicPoolIndex shareAmount nonce =
        (some { json := [], error := clientNotCreatedMsg }, [])) ∧
    (∀ (engine : Engine) (marketIndex initialMarginFraction marginMode nonce : Int),
      Mobile.SignUpdateLeverage none engine marketIndex initialMarginFraction
          marginMode nonce =
        (some { json := [], error := clientNotCreatedMsg }, [])) ∧
    (∀ (engine : Engine) (marketIndex usdcAmount direction nonce : Int),
      Mobile.SignUpdateMargin none engine marketIndex usdcAmount direction nonce =
        (some { json := [], error := updateMarginNotCreatedMsg }, [])) ∧
    (∀ (engine : Engine) (nowSec deadline : Int),
      Mobile.CreateAuthToken none engine nowSec deadline =
        (some { json := "", error := clientNotCreatedMsg }, [])) := by
  refine ⟨?_, ?_, ?_, ?_, ?_, ?_, ?_, ?_, ?_, ?_, ?_, ?_, ?_, ?_, ?_, ?_⟩ <;>
    intros <;> rfl

/-- C4: in every build operation, in both bindings, every transact-options
value that reaches the signing engine carries no nonce override when the
caller passed the sentinel -1, and carries exactly the caller's nonce
otherwise — including negative nonces other than -1, which pass through
verbatim. -/
theorem c4_nonce_sentinel_passthrough :
    (∀ (txClient : Option Session) (engine : Engine) (pubKey : String) (nonce : Int),
      ∀ call ∈ (Mobile.SignChangePubKey txClient engine pubKey nonce).2,
        callNonce call = (if nonce = -1 then none else some nonce)) ∧
    (∀ (txClient : Option Session) (engine : Engine)
        (nowMilli marketIndex clientOrderIndex baseAmount price isAsk orderType
         timeInForce reduceOnly triggerPrice orderExpiry nonce : Int),
      ∀ call ∈ (Mobile.SignCreateOrder txClient engine nowMilli marketIndex
          clientOrderIndex baseAmount price isAsk orderType timeInForce reduceOnly
          triggerPrice orderExpiry nonce).2,
        callNonce call = (if nonce = -1 then none else some nonce)) ∧
    (∀ (txClient : Option Session) (engine : Engine) (nowMilli groupingType : Int)
        (ordersJSON : Except String (List OrderDoc)) (nonce : Int),
      ∀ call ∈ (Mobile.SignCreateGroupedOrders txClient engine nowMilli groupingType
          ordersJSON nonce).2,
        callNonce call = (if nonce = -1 then none else some nonce)) ∧
    (∀ (txClient : Option Session) (engine : Engine) (marketIndex orderIndex nonce : Int),
      ∀ call ∈ (Mobile.SignCancelOrder txClient engine marketIndex orderIndex nonce).2,
        callNonce call = (if nonce = -1 then none else some nonce)) ∧
    (∀ (txClient : Option Session) (engine : Engine) (usdcAmount nonce : Int),
      ∀ call ∈ (Mobile.SignWithdraw txClient engine usdcAmount nonce).2,
        callNonce call = (if nonce = -1 then none else some nonce)) ∧
    (∀ (txClient : Option Session) (engine : Engine) (nonce : Int),
      ∀ call ∈ (Mobile.SignCreateSubAccount txClient engine nonce).2,
        callNonce call = (if nonce = -1 then none else some nonce)) ∧
    (∀ (txClient : Option Session) (engine : Engine) (timeInForce time nonce : Int),
      ∀ call ∈ (Mobile.SignCancelAllOrders txClient engine timeInForce time nonce).2,
        callNonce call = (if nonce = -1 then none else some nonce)) ∧
    (∀ (txClient : Option Session) (engine : Engine)
        (marketIndex index baseAmount price triggerPrice nonce : Int),
      ∀ call ∈ (Mobile.SignModifyOrder txClient engine marketIndex index baseAmount
          price triggerPrice nonce).2,
        callNonce call = (if nonce = -1 then none else some nonce)) ∧
    (∀ (txClient : Option Session) (engine : Engine) (toAccountIndex usdcAmount fee : Int)
        (memo : List Nat) (nonce : Int),
      ∀ call ∈ (Mobile.SignTransfer txClient engine toAccountIndex usdcAmount fee
          memo nonce).2,
        callNonce call = (if nonce = -1 then none else some nonce)) ∧
    (∀ (txClient : Option Session) (engine : Engine)
        (operatorFee initialTotalShares minOperatorShareRate nonce : Int),
      ∀ call ∈ (Mobile.SignCreatePublicPool txClient engine operatorFee
          initialTotalShares minOperatorShareRate nonce).2,
        callNonce call = (if nonce = -1 then none else some nonce)) ∧
    (∀ (txClient : Option Session) (engine : Engine)
        (publicPoolIndex status operatorFee minOperatorShareRate nonce : Int),
      ∀ call ∈ (Mobile.SignUpdatePublicPool txClient engine publicPoolIndex status
          operatorFee minOperatorShareRate nonce).2,
        callNonce call = (if nonce = -1 then none else some nonce)) ∧
    (∀ (txClient : Option Session) (engine : Engine) (publicPoolIndex shareAmount nonce : Int),
      ∀ call ∈ (Mobile.SignMintShares txClient engine publicPoolIndex shareAmount nonce).2,
        callNonce call = (if nonce = -1 then none else some nonce)) ∧
    (∀ (txClient : Option Session) (engine : Engine) (publicPoolIndex shareAmount nonce : Int),
      ∀ call ∈ (Mobile.SignBurnShares txClient engine publicPoolIndex shareAmount nonce).2,
        callNonce call = (if nonce = -1 then none else some nonce)) ∧
    (∀ (txClient : Option Session) (engine : Engine)
        (marketIndex initialMarginFraction marginMode nonce : Int),
      ∀ call ∈ (Mobile.SignUpdateLeverage txClient engine marketIndex
          initialMarginFraction marginMode nonce).2,
        callNonce call = (if nonce = -1 then none else some nonce)) ∧
    (∀ (txClient : Option Session) (engine : Engine)
        (marketIndex usdcAmount direction nonce : Int),
      ∀ call ∈ (Mobile.SignUpdateMargin txClient engine marketIndex usdcAmount
          direction nonce).2,
        callNonce call = (if nonce = -1 then none else some nonce)) ∧
    (∀ (txClient : Option Session) (engine : Engine)
        (nowMilli marketIndex clientOrderIndex baseAmount price isAsk orderType
         timeInForce reduceOnly triggerPrice orderExpiry nonce : Int),
      ∀ call ∈ (Wasm.signCreateOrder txClient engine nowMilli marketIndex
          clientOrderIndex baseAmount price isAsk orderType timeInForce reduceOnly
          triggerPrice orderExpiry nonce).2,
        callNonce call = (if nonce = -1 then none else some nonce)) := by
  refine ⟨?_, ?_, ?_, ?_, ?_, ?_, ?_, ?_, ?_, ?_, ?_, ?_, ?_, ?_, ?_, ?_⟩
  · intro tc engine pubKey nonce call hcall
    cases tc with
    | none => simp [Mobile.SignChangePubKey] at hcall
    | some c =>
      rcases hd : hexutilDecode pubKey with e | bs
      · simp [Mobile.SignChangePubKey, hd] at hcall
      · by_cases hl : bs.length = 40
        · simp [Mobile.SignChangePubKey, hd, hl, runTxWithMessage_calls] at hcall
          subst hcall; rfl
        · simp [Mobile.SignChangePubKey, hd, hl] at hcall
  · intro tc engine nowMilli mi coi ba p ia ot tif ro tp oe nonce call hcall
    cases tc with
    | none => simp [Mobile.SignCreateOrder] at hcall
    | some c =>
      simp [Mobile.SignCreateOrder, runTx_calls] at hcall
      subst hcall; rfl
  · intro tc engine nowMilli gt oj nonce call hcall
    cases tc with
    | none => simp [Mobile.SignCreateGroupedOrders] at hcall
    | some c =>
      rcases oj with e | ordersData
      · simp [Mobile.SignCreateGroupedOrders] at hcall
      · rcases hc : convertOrders nowMilli 0 ordersData with e | orders
        · simp [Mobile.SignCreateGroupedOrders, hc] at hcall
        · simp [Mobile.SignCreateGroupedOrders, hc, runTx_calls] at hcall
          subst hcall; rfl
  · intro tc engine mi oi nonce call hcall
    cases tc with
    | none => simp [Mobile.SignCancelOrder] at hcall
    | some c =>
      simp [Mobile.SignCancelOrder, runTx_calls] at hcall
      subst hcall; rfl
  · intro tc engine amt nonce call hcall
    cases tc with
    | none => simp [Mobile.SignWithdraw] at hcall
    | some c =>
      simp [Mobile.SignWithdraw, runTx_calls] at hcall
      subst hcall; rfl
  · intro tc engine nonce call hcall
    cases tc with
    | none => simp [Mobile.SignCreateSubAccount] at hcall
    | some c =>
      simp [Mobile.SignCreateSubAccount, runTx_calls] at hcall
      subst hcall; rfl
  · intro tc engine tif time nonce call hcall
    cases tc with
    | none => simp [Mobile.SignCancelAllOrders] at hcall
    | some c =>
      simp [Mobile.SignCancelAllOrders, runTx_calls] at hcall
      subst hcall; rfl
  · intro tc engine mi idx ba p tp nonce call hcall
    cases tc with
    | none => simp [Mobile.SignModifyOrder] at hcall
    | some c =>
      simp [Mobile.SignModifyOrder, runTx_calls] at hcall
      subst hcall; rfl
  · intro tc engine toA amt fee memo nonce call hcall
    cases tc with
    | none => simp [Mobile.SignTransfer] at hcall
    | some c =>
      by_cases hm : memo.length = 32
      · simp [Mobile.SignTransfer, hm, runTxWithMessage_calls] at hcall
        subst hcall; rfl
      · simp [Mobile.SignTransfer, hm] at hcall
  · intro tc engine a b c2 nonce call hcall
    cases tc with
    | none => simp [Mobile.SignCreatePublicPool] at hcall
    | some c =>
      simp [Mobile.SignCreatePublicPool, runTx_calls] at hcall
      subst hcall; rfl
  · intro tc engine ppi stt oper mosr nonce call hcall
    cases tc with
    | none => simp [Mobile.SignUpdatePublicPool] at hcall
    | some c =>
      simp [Mobile.SignUpdatePublicPool, runTx_calls] at hcall
      subst hcall; rfl
  · intro tc engine ppi sa nonce call hcall
    cases tc with
    | none => simp [Mobile.SignMintShares] at hcall
    | some c =>
      simp [Mobile.SignMintShares, runTx_calls] at hcall
      subst hcall; rfl
  · intro tc engine ppi sa nonce call hcall
    cases tc with
    | none => simp [Mobile.SignBurnShares] at hcall
    | some c =>
      simp [Mobile.SignBurnShares, runTx_calls] at hcall
      subst hcall; rfl
  · intro tc engine mi imf mm nonce call hcall
    cases tc with
    | none => simp [Mobile.SignUpdateLeverage] at hcall
    | some c =>
      simp [Mobile.SignUpdateLeverage, runTx_calls] at hcall
      subst hcall; rfl
  · intro tc engine mi amt dir nonce call hcall
    cases tc with
    | none => simp [Mobile.SignUpdateMargin] at hcall
    | some c =>
      simp [Mobile.SignUpdateMargin, runTx_calls] at hcall
      subst hcall; rfl
  · intro tc engine nowMilli mi coi ba p ia ot tif ro tp oe nonce call hcall
    cases tc with
    | none => simp [Wasm.signCreateOrder] at hcall
    | some c =>
      simp [Wasm.signCreateOrder, runTx_calls] at hcall
      subst hcall; rfl

/-- Witness for C4: with a registered session and an always-succeeding
engine, `SignCancelOrder` with nonce 5 carries the override `some 5`. -/
theorem c4_nonce_sentinel_passthrough_witness :
    callNonce (EngineCall.tx s1 (EngineReq.cancelOrder 1 2) (some 5)) =
      (if (5 : Int) = -1 then none else some 5) :=
  c4_nonce_sentinel_passthrough.2.2.2.1 (some s1) okEngine 1 2 5
    (EngineCall.tx s1 (EngineReq.cancelOrder 1 2) (some 5)) (by decide)

/-- C5: with an active session, `SignTransfer` returns the fixed memo
validation error with no engine call exactly when the memo's byte length is
not 32 (a 32-byte memo always reaches the engine); and `SignChangePubKey`
on a decodable pub-key hex string returns the length validation error with
no engine call whenever the decoded length is not 40, reaching the engine
exactly when it is 40. -/
theorem c5_length_validation_before_engine :
    (∀ (c : Session) (engine : Engine) (toAccountIndex usdcAmount fee : Int)
        (memo : List Nat) (nonce : Int), memo.length ≠ 32 →
      Mobile.SignTransfer (some c) engine toAccountIndex usdcAmount fee memo nonce =
        (some { json := [], error := memoLengthMsg }, [])) ∧
    (∀ (c : Session) (engine : Engine) (toAccountIndex usdcAmount fee : Int)
        (memo : List Nat) (nonce : Int), memo.length = 32 →
      (Mobile.SignTransfer (some c) engine toAccountIndex usdcAmount fee memo nonce).2 ≠ []) ∧
    (∀ (c : Session) (engine : Engine) (toAccountIndex usdcAmount fee : Int)
        (memo : List Nat) (nonce : Int),
      ((Mobile.SignTransfer (some c) engine toAccountIndex usdcAmount fee memo nonce).2 = [] ∧
        resultError
          (Mobile.SignTransfer (some c) engine toAccountIndex usdcAmount fee memo nonce).1 =
          memoLengthMsg) ↔ memo.length ≠ 32) ∧
    (∀ (c : Session) (engine : Engine) (pubKey : String) (nonce : Int) (bs : List Nat),
      hexutilDecode pubKey = Except.ok bs → bs.length ≠ 40 →
        Mobile.SignChangePubKey (some c) engine pubKey nonce =
          (some { json := [],
                  error := "invalid pub key length. expected 40 but got " ++
                    toString bs.length }, [])) ∧
    (∀ (c : Session) (engine : Engine) (pubKey : String) (nonce : Int) (bs : List Nat),
      hexutilDecode pubKey = Except.ok bs →
        ((Mobile.SignChangePubKey (some c) engine pubKey nonce).2 ≠ [] ↔ bs.length = 40)) := by
  refine ⟨?_, ?_, ?_, ?_, ?_⟩
  · intro c engine toA amt fee memo nonce hm
    simp [Mobile.SignTransfer, hm]
  · intro c engine toA amt fee memo nonce hm
    simp [Mobile.SignTransfer, hm, runTxWithMessage_calls]
  · intro c engine toA amt fee memo nonce
    by_cases hm : memo.length = 32
    · simp [Mobile.SignTransfer, hm, runTxWithMessage_calls]
    · simp [Mobile.SignTransfer, hm, resultError]
  · intro c engine pubKey nonce bs hd hl
    simp [Mobile.SignChangePubKey, hd, hl]
  · intro c engine pubKey nonce bs hd
    by_cases hl : bs.length = 40
    · simp [Mobile.SignChangePubKey, hd, hl, runTxWithMessage_calls]
    · simp [Mobile.SignChangePubKey, hd, hl]

/-- Witness for C5: the hex string 0x1234 decodes to two bytes, and
`SignChangePubKey` then yields the length error naming 2, with no engine
call. -/
theorem c5_length_validation_before_engine_witness :
    Mobile.SignChangePubKey (some s1) okEngine "0x1234" 5 =
      (some { json := [],
              error := "invalid pub key length. expected 40 but got " ++
                toString ([18, 52] : List Nat).length }, []) :=
  c5_length_validation_before_engine.2.2.2.1 s1 okEngine "0x1234" 5 [18, 52]
    (by rfl) (by decide)

/-- Counterexample to C2: in the gomobile binding, switching to an
unregistered slot overwrites the active pointer with nil before the check,
so the previously active session is lost and the next build call fails with
the no-active-session error instead of using it. -/
theorem c2_counterexample :
    lookupSlot stOne.table 2 = none ∧
    stOne.active = some s1 ∧
    (Mobile.SwitchAPIKey stOne 2).2 = "no client initialized for api key" ∧
    (Mobile.SwitchAPIKey stOne 2).1.active = none ∧
    (Mobile.SwitchAPIKey stOne 2).1.active ≠ stOne.active ∧
    (Mobile.SignCancelOrder (Mobile.SwitchAPIKey stOne 2).1.active okEngine 1 2 3).1 =
      some { json := [], error := clientNotCreatedMsg } := by
  decide

/-- C2 amended: switching to an unregistered slot returns a fixed non-empty
error and leaves the registry mapping unchanged in both bindings; the wasm
binding also leaves the active pointer unchanged, but the gomobile binding
overwrites it with nil. -/
theorem c2_amended_switch_unregistered :
    (∀ (st : RegistryState) (k : Int), lookupSlot st.table k = none →
      Mobile.SwitchAPIKey st k =
        ({ table := st.table, active := none }, "no client initialized for api key")) ∧
    (∀ (st : RegistryState) (kArg : Int),
      lookupSlot st.table (Int.ofNat (goUInt8 kArg)) = none →
      Wasm.switchAPIKey st kArg = (st, "api key not registered")) := by
  constructor
  · intro st k h
    cases st
    simp [Mobile.SwitchAPIKey, h]
  · intro st kArg h
    simp only [Wasm.switchAPIKey]
    rw [h]

/-- Witness for C2 amended: switching to the unregistered slot 2 of a
one-entry registry. -/
theorem c2_amended_switch_unregistered_witness :
    Mobile.SwitchAPIKey stOne 2 =
      ({ table := stOne.table, active := none }, "no client initialized for api key") :=
  c2_amended_switch_unregistered.1 stOne 2 (by decide)

theorem activeInTable_applyOp (st : RegistryState) (op : RegistryOp)
    (h : ActiveInTable st) : ActiveInTable (applyOp st op) := by
  cases op with
  | openMobile url pk cid k a e =>
    by_cases ha : a ≤ 0
    · simpa [applyOp, Mobile.CreateClient, ha] using h
    · cases e with
      | panicked m => simpa [applyOp, Mobile.CreateClient, ha] using h
      | fail m =>
        intro s hs
        simp [applyOp, Mobile.CreateClient, ha] at hs
      | ok s0 =>
        intro s hs
        simp [applyOp, Mobile.CreateClient, ha] at hs
        subst hs
        exact ⟨k, by simp [applyOp, Mobile.CreateClient, ha, lookupSlot_insertSlot_self]⟩
  | openWasm url pk cid k a e =>
    by_cases ha : a ≤ 0
    · simpa [applyOp, Wasm.createClient, ha] using h
    · cases e with
      | panicked m => simpa [applyOp, Wasm.createClient, ha] using h
      | fail m =>
        intro s hs
        simp [applyOp, Wasm.createClient, ha] at hs
      | ok s0 =>
        intro s hs
        simp [applyOp, Wasm.createClient, ha] at hs
        subst hs
        exact ⟨Int.ofNat (goUInt8 k),
          by simp [applyOp, Wasm.createClient, ha, lookupSlot_insertSlot_self]⟩
  | switchMobile k =>
    cases hl : lookupSlot st.table k with
    | none =>
      intro s hs
      simp [applyOp, Mobile.SwitchAPIKey, hl] at hs
    | some c =>
      intro s hs
      simp [applyOp, Mobile.SwitchAPIKey, hl] at hs
      subst hs
      exact ⟨k, by simp [applyOp, Mobile.SwitchAPIKey, hl]⟩
  | switchWasm k =>
    cases hl : lookupSlot st.table (Int.ofNat (goUInt8 k)) with
    | none =>
      intro s hs
      simp only [applyOp, Wasm.switchAPIKey] at hs ⊢
      rw [hl] at hs ⊢
      exact h s hs
    | some c =>
      intro s hs
      simp only [applyOp, Wasm.switchAPIKey] at hs
      rw [hl] at hs
      simp at hs
      subst hs
      refine ⟨Int.ofNat (goUInt8 k), ?_⟩
      simp only [applyOp, Wasm.switchAPIKey]
      rw [hl]
      exact hl

/-- C7: after any sequence of open-session and switch-active calls, by
either binding and with any engine outcomes, a set active pointer always
equals a session currently present in the slot mapping. -/
theorem c7_active_pointer_in_mapping (ops : List RegistryOp) :
    ActiveInTable (runOps ops) := by
  suffices hgen : ∀ (st : RegistryState), ActiveInTable st →
      ActiveInTable (ops.foldl applyOp st) by
    refine hgen initialState ?_
    intro s hs
    simp [initialState] at hs
  induction ops with
  | nil => intro st h; exact h
  | cons op rest ih =>
    intro st h
    exact ih _ (activeInTable_applyOp st op h)

/-- Witness for C7: the invariant holds after one successful open at
slot 7. -/
theorem c7_active_pointer_in_mapping_witness :
    ActiveInTable (runOps [RegistryOp.openMobile "u" "k" 1 7 1 (ClientBehavior.ok s1)]) :=
  c7_active_pointer_in_mapping
    [RegistryOp.openMobile "u" "k" 1 7 1 (ClientBehavior.ok s1)]

theorem createAuthToken_calls (c : Session) (engine : Engine) (nowSec deadline : Int) :
    (Mobile.CreateAuthToken (some c) engine nowSec deadline).2 =
      [EngineCall.auth c (if deadline = 0 then nowSec + 25200 else deadline)] := by
  cases hA : engine.authToken c (if deadline = 0 then nowSec + 25200 else deadline) <;>
    simp [Mobile.CreateAuthToken, hA]

/-- C8: a create-order call with the sentinel expiry -1 reaches the engine
with expiry resolved to the build-time clock plus 28 days in milliseconds,
any other expiry is passed through unchanged; an auth-token call with the
sentinel deadline 0 reaches the engine with the build-time clock plus 7
hours in seconds, any other deadline is passed through verbatim. -/
theorem c8_expiry_and_deadline_sentinels :
    (∀ (c : Session) (engine : Engine)
        (nowMilli marketIndex clientOrderIndex baseAmount price isAsk orderType
         timeInForce reduceOnly triggerPrice nonce : Int),
      ∀ call ∈ (Mobile.SignCreateOrder (some c) engine nowMilli marketIndex
          clientOrderIndex baseAmount price isAsk orderType timeInForce reduceOnly
          triggerPrice (-1) nonce).2,
        callOrderExpiry call = some (nowMilli + 2419200000)) ∧
    (∀ (c : Session) (engine : Engine)
        (nowMilli marketIndex clientOrderIndex baseAmount price isAsk orderType
         timeInForce reduceOnly triggerPrice orderExpiry nonce : Int),
      orderExpiry ≠ -1 →
      ∀ call ∈ (Mobile.SignCreateOrder (some c) engine nowMilli marketIndex
          clientOrderIndex baseAmount price isAsk orderType timeInForce reduceOnly
          triggerPrice orderExpiry nonce).2,
        callOrderExpiry call = some orderExpiry) ∧
    (∀ (c : Session) (engine : Engine) (nowSec : Int),
      ∀ call ∈ (Mobile.CreateAuthToken (some c) engine nowSec 0).2,
        callDeadline call = some (nowSec + 25200)) ∧
    (∀ (c : Session) (engine : Engine) (nowSec deadline : Int), deadline ≠ 0 →
      ∀ call ∈ (Mobile.CreateAuthToken (some c) engine nowSec deadline).2,
        callDeadline call = some deadline) := by
  refine ⟨?_, ?_, ?_, ?_⟩
  · intro c engine nowMilli mi coi ba p ia ot tif ro tp nonce call hcall
    simp [Mobile.SignCreateOrder, runTx_calls] at hcall
    subst hcall
    norm_num [callOrderExpiry]
  · intro c engine nowMilli mi coi ba p ia ot tif ro tp oe nonce hoe call hcall
    simp [Mobile.SignCreateOrder, runTx_calls, hoe] at hcall
    subst hcall
    simp [callOrderExpiry]
  · intro c engine nowSec call hcall
    simp [createAuthToken_calls] at hcall
    subst hcall
    norm_num [callDeadline]
  · intro c engine nowSec deadline hdl call hcall
    simp [createAuthToken_calls, hdl] at hcall
    subst hcall
    simp [callDeadline]

/-- Witness for C8: a nonzero deadline 9 reaches the engine verbatim. -/
theorem c8_expiry_and_deadline_sentinels_witness :
    callDeadline (EngineCall.auth s1 9) = some 9 :=
  c8_expiry_and_deadline_sentinels.2.2.2 s1 okEngine 100 9 (by decide)
    (EngineCall.auth s1 9) (by decide)

/-- C10: when open-session passes the account-index guard but the engine's
client construction fails, both bindings return a non-empty error, keep
every slot-mapping entry unchanged, and overwrite the active pointer with
nil, so subsequent build calls fail with the no-active-session error. -/
theorem c10_failed_open_clears_active :
    ∀ (st : RegistryState) (url privateKey : String) (chainId : Nat)
      (apiKeyIndex accountIndex : Int) (e : String),
      0 < accountIndex → e ≠ "" →
      Mobile.CreateClient st url privateKey chainId apiKeyIndex accountIndex
          (ClientBehavior.fail e) =
        ({ table := st.table, active := none },
          "error occurred when creating TxClient. err: " ++ e) ∧
      (Mobile.CreateClient st url privateKey chainId apiKeyIndex accountIndex
          (ClientBehavior.fail e)).2 ≠ "" ∧
      Wasm.createClient st url privateKey chainId apiKeyIndex accountIndex
          (ClientBehavior.fail e) = ({ table := st.table, active := none }, e) ∧
      (Wasm.createClient st url privateKey chainId apiKeyIndex accountIndex
          (ClientBehavior.fail e)).2 ≠ "" ∧
      (∀ (engine : Engine) (marketIndex orderIndex nonce : Int),
        Mobile.SignCancelOrder
            (Mobile.CreateClient st url privateKey chainId apiKeyIndex accountIndex
              (ClientBehavior.fail e)).1.active engine marketIndex orderIndex nonce =
          (some { json := [], error := clientNotCreatedMsg }, [])) ∧
      (∀ (engine : Engine) (pubKey : String) (nonce : Int),
        Mobile.SignChangePubKey
            (Mobile.CreateClient st url privateKey chainId apiKeyIndex accountIndex
              (ClientBehavior.fail e)).1.active engine pubKey nonce =
          (some { json := [], error := clientNotCreatedMsg }, [])) := by
  intro st url pk cid k a e ha he
  have hne : ¬ a ≤ 0 := not_le.mpr ha
  have h1 : Mobile.CreateClient st url pk cid k a (ClientBehavior.fail e) =
      ({ table := st.table, active := none },
        "error occurred when creating TxClient. err: " ++ e) := by
    cases st
    simp [Mobile.CreateClient, hne]
  have h2 : Wasm.createClient st url pk cid k a (ClientBehavior.fail e) =
      ({ table := st.table, active := none }, e) := by
    cases st
    simp [Wasm.createClient, hne]
  refine ⟨h1, ?_, h2, ?_, ?_, ?_⟩
  · rw [h1]
    exact str_append_ne_empty _ _ (by decide)
  · rw [h2]
    exact he
  · intro engine mi oi n
    rw [h1]
    rfl
  · intro engine pubKey n
    rw [h1]
    rfl

/-- Witness for C10: a failed open at slot 9 of a one-entry registry. -/
theorem c10_failed_open_clears_active_witness :
    Mobile.CreateClient stOne "u" "k" 1 9 5 (ClientBehavior.fail "bad key") =
      ({ table := stOne.table, active := none },
        "error occurred when creating TxClient. err: " ++ "bad key") :=
  (c10_failed_open_clears_active stOne "u" "k" 1 9 5 "bad key" (by decide) (by decide)).1

/-- Counterexample to C9: the remote-reported key AB hex-decodes to the
same byte as the local key's encoding ab, yet the verification fails,
because the code compares the two strings, not the decoded bytes. -/
theorem c9_counterexample :
    decodeHexStr "AB" = some sC9.pubKeyBytes ∧
    decodeHexStr "ab" = some sC9.pubKeyBytes ∧
    hexEncodeBare sC9.pubKeyBytes = "ab" ∧
    Mobile.CheckClient stC9 3 1 (ApiKeyBehavior.ok [{ publicKey := "AB" }]) ≠ "" := by
  decide

/-- C9 amended: when a session exists at the slot and its recorded slot and
account index match the arguments, the verification succeeds exactly when
the remote-reported public-key string equals, as a string, the local key's
bare lower-case hex encoding; on mismatch it returns an error naming both
strings.  (The remote string is never hex-decoded: a differently formatted
but byte-equal remote key is rejected.) -/
theorem c9_amended_remote_key_string_comparison :
    (∀ (st : RegistryState) (k acct : Int) (c : Session) (ak : RemoteApiKey)
        (rest : List RemoteApiKey),
      lookupSlot st.table k = some c → c.apiKeyIndex = goUInt8 k →
      c.accountIndex = acct →
      (Mobile.CheckClient st k acct (ApiKeyBehavior.ok (ak :: rest)) = "" ↔
        ak.publicKey = hexEncodeBare c.pubKeyBytes) ∧
      (ak.publicKey ≠ hexEncodeBare c.pubKeyBytes →
        Mobile.CheckClient st k acct (ApiKeyBehavior.ok (ak :: rest)) =
          "private key does not match the one on Lighter. ownPubKey: " ++
            hexEncodeBare c.pubKeyBytes ++ " response: " ++ ak.publicKey)) ∧
    (∀ (st : RegistryState) (kArg acct : Int) (c : Session) (ak : RemoteApiKey)
        (rest : List RemoteApiKey),
      lookupSlot st.table (Int.ofNat (goUInt8 kArg)) = some c →
      c.apiKeyIndex = goUInt8 kArg → c.accountIndex = acct →
      (Wasm.checkClient st kArg acct (ApiKeyBehavior.ok (ak :: rest)) = "" ↔
        ak.publicKey = hexEncodeBare c.pubKeyBytes) ∧
      (ak.publicKey ≠ hexEncodeBare c.pubKeyBytes →
        Wasm.checkClient st kArg acct (ApiKeyBehavior.ok (ak :: rest)) =
          "private key does not match the one on Lighter. ownPubKey: " ++
            hexEncodeBare c.pubKeyBytes ++ " response: " ++ ak.publicKey)) := by
  have hmsg : ∀ x y : String,
      ("private key does not match the one on Lighter. ownPubKey: " ++ x ++
        " response: " ++ y) ≠ "" :=
    fun x y =>
      str_append_ne_empty _ _ (str_append_ne_empty _ _ (str_append_ne_empty _ _ (by decide)))
  constructor
  · intro st k acct c ak rest hl hk hacct
    have hres : Mobile.CheckClient st k acct (ApiKeyBehavior.ok (ak :: rest)) =
        (if ak.publicKey = hexEncodeBare c.pubKeyBytes then ""
         else "private key does not match the one on Lighter. ownPubKey: " ++
           hexEncodeBare c.pubKeyBytes ++ " response: " ++ ak.publicKey) := by
      by_cases hpk : ak.publicKey = hexEncodeBare c.pubKeyBytes
      · simp [Mobile.CheckClient, hl, hk, hacct, hpk]
      · simp [Mobile.CheckClient, hl, hk, hacct, hpk]
    refine ⟨?_, ?_⟩
    · rw [hres]
      by_cases hpk : ak.publicKey = hexEncodeBare c.pubKeyBytes
      · simp [hpk]
      · simp only [hpk, if_false, iff_false]
        exact hmsg _ _
    · intro hpk
      rw [hres, if_neg hpk]
  · intro st kArg acct c ak rest hl hk hacct
    have hres : Wasm.checkClient st kArg acct (ApiKeyBehavior.ok (ak :: rest)) =
        (if ak.publicKey = hexEncodeBare c.pubKeyBytes then ""
         else "private key does not match the one on Lighter. ownPubKey: " ++
           hexEncodeBare c.pubKeyBytes ++ " response: " ++ ak.publicKey) := by
      by_cases hpk : ak.publicKey = hexEncodeBare c.pubKeyBytes
      · simp only [Wasm.checkClient]
        rw [hl]
        simp [hk, hacct, hpk]
      · simp only [Wasm.checkClient]
        rw [hl]
        simp [hk, hacct, hpk]
    refine ⟨?_, ?_⟩
    · rw [hres]
      by_cases hpk : ak.publicKey = hexEncodeBare c.pubKeyBytes
      · simp [hpk]
      · simp only [hpk, if_false, iff_false]
        exact hmsg _ _
    · intro hpk
      rw [hres, if_neg hpk]

/-- Witness for C9 amended: a remote string equal to the local lower-case
encoding verifies successfully. -/
theorem c9_amended_remote_key_string_comparison_witness :
    Mobile.CheckClient stC9 3 1 (ApiKeyBehavior.ok [{ publicKey := "ab" }]) = "" ↔
      ({ publicKey := "ab" } : RemoteApiKey).publicKey = hexEncodeBare sC9.pubKeyBytes :=
  (c9_amended_remote_key_string_comparison.1 stC9 3 1 sC9 { publicKey := "ab" } []
    (by decide) (by decide) (by decide)).1

/-- Counterexample to C1: when the signing engine panics, the recovered
operation does not return an error result with a non-empty string — the
gomobile `SignChangePubKey` returns the nil result (no error string at
all), and `CreateClient` returns the empty string, which is the success
value. -/
theorem c1_counterexample :
    (Mobile.SignChangePubKey (some s1) panicEngine pk40hex 5).1 = none ∧
    resultError (Mobile.SignChangePubKey (some s1) panicEngine pk40hex 5).1 = "" ∧
    Mobile.CreateClient initialState "u" "k" 1 0 1 (ClientBehavior.panicked "boom") =
      (initialState, "") := by
  decide

/-- C1 amended: no internal fault propagates to the host — every operation
returns a value for every engine behavior, and the only way the gomobile
`SignChangePubKey` yields no result record is an engine panic; but a
recovered fault produces the zero value of the result type (nil result,
empty string) rather than a non-empty error. -/
theorem c1_amended_fault_containment :
    (∀ (txClient : Option Session) (engine : Engine) (pubKey : String) (nonce : Int),
      (∀ (s : Session) (req : EngineReq) (ops : Option Int) (m : String),
          engine.run s req ops ≠ EngineBehavior.panicked m) →
        ∃ r, (Mobile.SignChangePubKey txClient engine pubKey nonce).1 = some r) ∧
    (∀ (txClient : Option Session) (engine : Engine) (pubKey : String) (nonce : Int),
      (Mobile.SignChangePubKey txClient engine pubKey nonce).1 = none →
        ∃ (s : Session) (req : EngineReq) (ops : Option Int) (m : String),
          engine.run s req ops = EngineBehavior.panicked m) ∧
    (∀ (st : RegistryState) (url privateKey : String) (chainId : Nat)
        (apiKeyIndex accountIndex : Int) (m : String),
      Mobile.CreateClient st url privateKey chainId apiKeyIndex accountIndex
          (ClientBehavior.panicked m) =
        (if accountIndex ≤ 0 then (st, "invalid account index") else (st, ""))) := by
  refine ⟨?_, ?_, ?_⟩
  · intro tc engine pubKey nonce hnp
    cases tc with
    | none => exact ⟨_, rfl⟩
    | some c =>
      rcases hd : hexutilDecode pubKey with e | bs
      · exact ⟨{ json := [], error := e }, by simp [Mobile.SignChangePubKey, hd]⟩
      · by_cases hl : bs.length = 40
        · cases hE : engine.run c (EngineReq.changePubKey bs)
              (if nonce = -1 then none else some nonce) with
          | panicked m => exact absurd hE (hnp _ _ _ m)
          | fail e2 =>
            exact ⟨{ json := [], error := e2 },
              by simp [Mobile.SignChangePubKey, hd, hl, runTxWithMessage, hE]⟩
          | ok tx =>
            exact ⟨{ json := setField tx.doc "MessageToSign" tx.l1Body, error := "" },
              by simp [Mobile.SignChangePubKey, hd, hl, runTxWithMessage, hE]⟩
        · refine ⟨{ json := [],
                    error := "invalid pub key length. expected 40 but got " ++
                      toString bs.length }, ?_⟩
          simp [Mobile.SignChangePubKey, hd, hl]
  · intro tc engine pubKey nonce hnone
    cases tc with
    | none => simp [Mobile.SignChangePubKey] at hnone
    | some c =>
      rcases hd : hexutilDecode pubKey with e | bs
      · simp [Mobile.SignChangePubKey, hd] at hnone
      · by_cases hl : bs.length = 40
        · cases hE : engine.run c (EngineReq.changePubKey bs)
              (if nonce = -1 then none else some nonce) with
          | panicked m => exact ⟨c, _, _, m, hE⟩
          | fail e2 =>
            simp [Mobile.SignChangePubKey, hd, hl, runTxWithMessage, hE] at hnone
          | ok tx =>
            simp [Mobile.SignChangePubKey, hd, hl, runTxWithMessage, hE] at hnone
        · simp [Mobile.SignChangePubKey, hd, hl] at hnone
  · intro st url privateKey chainId apiKeyIndex accountIndex m
    by_cases ha : accountIndex ≤ 0 <;> simp [Mobile.CreateClient, ha]

/-- Witness for C1 amended: with a never-panicking engine the operation
returns a result record. -/
theorem c1_amended_fault_containment_witness :
    ∃ r, (Mobile.SignChangePubKey (some s1) okEngine pk40hex 5).1 = some r :=
  c1_amended_fault_containment.1 (some s1) okEngine pk40hex 5
    (by intro s req ops m; simp [okEngine])

theorem hexutilDecodeChars_error_ne (l : List Char) (e : String)
    (h : hexutilDecodeChars l = Except.error e) : e ≠ "" := by
  match l with
  | [] =>
    simp [hexutilDecodeChars] at h
    subst h
    decide
  | [c] =>
    simp [hexutilDecodeChars] at h
    subst h
    decide
  | c0 :: c1 :: rest =>
    by_cases hp : c0 = '0' ∧ (c1 = 'x' ∨ c1 = 'X')
    · simp only [hexutilDecodeChars, if_pos hp] at h
      cases hx : hexPairs rest with
      | none =>
        rw [hx] at h
        injection h with h
        subst h
        decide
      | some bs =>
        rw [hx] at h
        exact Except.noConfusion h
    · simp only [hexutilDecodeChars, if_neg hp] at h
      injection h with h
      subst h
      decide

theorem hexutilDecode_error_ne (s : String) (e : String)
    (h : hexutilDecode s = Except.error e) : e ≠ "" :=
  hexutilDecodeChars_error_ne _ _ h

theorem convertOrders_error_ne (nowMilli : Int) :
    ∀ (docs : List OrderDoc) (i : Nat) (e : String),
      convertOrders nowMilli i docs = Except.error e → e ≠ "" := by
  intro docs
  induction docs with
  | nil =>
    intro i e h
    simp [convertOrders] at h
  | cons d rest ih =>
    intro i e h
    simp only [convertOrders] at h
    repeat' split at h
    all_goals first
      | (injection h with h; subst h;
         exact str_append_ne_empty _ _ (str_append_ne_empty _ _ (by decide)))
      | (exact Except.noConfusion h)
      | (injection h with h; subst h; exact ih _ _ (by assumption))

/-- C6: with an active session and an engine that never fails with an empty
message, every successful `SignChangePubKey` or `SignTransfer` result is
the engine's transaction document with the extra field MessageToSign set to
the engine-provided L1 signature body (so the field is always present);
every other kind's successful result is exactly the engine's transaction
document, unmodified — it carries the field only if the engine's own
document already did. -/
theorem c6_message_to_sign_augmentation :
    (∀ (c : Session) (engine : Engine) (pubKey : String) (nonce : Int),
      (∀ (s : Session) (req : EngineReq) (ops : Option Int),
          engine.run s req ops ≠ EngineBehavior.fail "") →
      ∀ (r : TxResult) (t : List EngineCall),
        Mobile.SignChangePubKey (some c) engine pubKey nonce = (some r, t) →
        r.error = "" →
        ∃ (tx : TxObject) (req : EngineReq) (ops : Option Int),
          engine.run c req ops = EngineBehavior.ok tx ∧
          t = [EngineCall.tx c req ops] ∧
          r.json = setField tx.doc "MessageToSign" tx.l1Body ∧
          containsKey r.json "MessageToSign" = true) ∧
    (∀ (c : Session) (engine : Engine) (toAccountIndex usdcAmount fee : Int)
        (memo : List Nat) (nonce : Int),
      (∀ (s : Session) (req : EngineReq) (ops : Option Int),
          engine.run s req ops ≠ EngineBehavior.fail "") →
      ∀ (r : TxResult) (t : List EngineCall),
        Mobile.SignTransfer (some c) engine toAccountIndex usdcAmount fee memo nonce =
          (some r, t) →
        r.error = "" →
        ∃ (tx : TxObject) (req : EngineReq) (ops : Option Int),
          engine.run c req ops = EngineBehavior.ok tx ∧
          t = [EngineCall.tx c req ops] ∧
          r.json = setField tx.doc "MessageToSign" tx.l1Body ∧
          containsKey r.json "MessageToSign" = true) ∧
    (∀ (c : Session) (engine : Engine)
        (nowMilli marketIndex clientOrderIndex baseAmount price isAsk orderType
         timeInForce reduceOnly triggerPrice orderExpiry nonce : Int),
      (∀ (s : Session) (req : EngineReq) (ops : Option Int),
          engine.run s req ops ≠ EngineBehavior.fail "") →
      ∀ (r : TxResult) (t : List EngineCall),
        Mobile.SignCreateOrder (some c) engine nowMilli marketIndex clientOrderIndex
            baseAmount price isAsk orderType timeInForce reduceOnly triggerPrice
            orderExpiry nonce = (some r, t) →
        r.error = "" →
        ∃ (tx : TxObject) (req : EngineReq) (ops : Option Int),
          engine.run c req ops = EngineBehavior.ok tx ∧
          t = [EngineCall.tx c req ops] ∧ r.json = tx.doc ∧
          (containsKey tx.doc "MessageToSign" = false →
            containsKey r.json "MessageToSign" = false)) ∧
    (∀ (c : Session) (engine : Engine) (nowMilli groupingType : Int)
        (ordersJSON : Except String (List OrderDoc)) (nonce : Int),
      (∀ (s : Session) (req : EngineReq) (ops : Option Int),
          engine.run s req ops ≠ EngineBehavior.fail "") →
      ∀ (r : TxResult) (t : List EngineCall),
        Mobile.SignCreateGroupedOrders (some c) engine nowMilli groupingType
            ordersJSON nonce = (some r, t) →
        r.error = "" →
        ∃ (tx : TxObject) (req : EngineReq) (ops : Option Int),
          engine.run c req ops = EngineBehavior.ok tx ∧
          t = [EngineCall.tx c req ops] ∧ r.json = tx.doc ∧
          (containsKey tx.doc "MessageToSign" = false →
            containsKey r.json "MessageToSign" = false)) ∧
    (∀ (c : Session) (engine : Engine) (marketIndex orderIndex nonce : Int),
      (∀ (s : Session) (req : EngineReq) (ops : Option Int),
          engine.run s req ops ≠ EngineBehavior.fail "") →
      ∀ (r : TxResult) (t : List EngineCall),
        Mobile.SignCancelOrder (some c) engine marketIndex orderIndex nonce =
          (some r, t) →
        r.error = "" →
        ∃ (tx : TxObject) (req : EngineReq) (ops : Option Int),
          engine.run c req ops = EngineBehavior.ok tx ∧
          t = [EngineCall.tx c req ops] ∧ r.json = tx.doc ∧
          (containsKey tx.doc "MessageToSign" = false →
            containsKey r.json "MessageToSign" = false)) ∧
    (∀ (c : Session) (engine : Engine) (usdcAmount nonce : Int),
      (∀ (s : Session) (req : EngineReq) (ops : Option Int),
          engine.run s req ops ≠ EngineBehavior.fail "") →
      ∀ (r : TxResult) (t : List EngineCall),
        Mobile.SignWithdraw (some c) engine usdcAmount nonce = (some r, t) →
        r.error = "" →
        ∃ (tx : TxObject) (req : EngineReq) (ops : Option Int),
          engine.run c req ops = EngineBehavior.ok tx ∧
          t = [EngineCall.tx c req ops] ∧ r.json = tx.doc ∧
          (containsKey tx.doc "MessageToSign" = false →
            containsKey r.json "MessageToSign" = false)) ∧
    (∀ (c : Session) (engine : Engine) (nonce : Int),
      (∀ (s : Session) (req : EngineReq) (ops : Option Int),
          engine.run s req ops ≠ EngineBehavior.fail "") →
      ∀ (r : TxResult) (t : List EngineCall),
        Mobile.SignCreateSubAccount (some c) engine nonce = (some r, t) →
        r.error = "" →
        ∃ (tx : TxObject) (req : EngineReq) (ops : Option Int),
          engine.run c req ops = EngineBehavior.ok tx ∧
          t = [EngineCall.tx c req ops] ∧ r.json = tx.doc ∧
          (containsKey tx.doc "MessageToSign" = false →
            containsKey r.json "MessageToSign" = false)) ∧
    (∀ (c : Session) (engine : Engine) (timeInForce time nonce : Int),
      (∀ (s : Session) (req : EngineReq) (ops : Option Int),
          engine.run s req ops ≠ EngineBehavior.fail "") →
      ∀ (r : TxResult) (t : List EngineCall),
        Mobile.SignCancelAllOrders (some c) engine timeInForce time nonce =
          (some r, t) →
        r.error = "" →
        ∃ (tx : TxObject) (req : EngineReq) (ops : Option Int),
          engine.run c req ops = EngineBehavior.ok tx ∧
          t = [EngineCall.tx c req ops] ∧ r.json = tx.doc ∧
          (containsKey tx.doc "MessageToSign" = false →
            containsKey r.json "MessageToSign" = false)) ∧
    (∀ (c : Session) (engine : Engine)
        (marketIndex index baseAmount price triggerPrice nonce : Int),
      (∀ (s : Session) (req : EngineReq) (ops : Option Int),
          engine.run s req ops ≠ EngineBehavior.fail "") →
      ∀ (r : TxResult) (t : List EngineCall),
        Mobile.SignModifyOrder (some c) engine marketIndex index baseAmount price
            triggerPrice nonce = (some r, t) →
        r.error = "" →
        ∃ (tx : TxObject) (req : EngineReq) (ops : Option Int),
          engine.run c req ops = EngineBehavior.ok tx ∧
          t = [EngineCall.tx c req ops] ∧ r.json = tx.doc ∧
          (containsKey tx.doc "MessageToSign" = false →
            containsKey r.json "MessageToSign" = false)) ∧
    (∀ (c : Session) (engine : Engine)
        (operatorFee initialTotalShares minOperatorShareRate nonce : Int),
      (∀ (s : Session) (req : EngineReq) (ops : Option Int),
          engine.run s req ops ≠ EngineBehavior.fail "") →
      ∀ (r : TxResult) (t : List EngineCall),
        Mobile.SignCreatePublicPool (some c) engine operatorFee initialTotalShares
            minOperatorShareRate nonce = (some r, t) →
        r.error = "" →
        ∃ (tx : TxObject) (req : EngineReq) (ops : Option Int),
          engine.run c req ops = EngineBehavior.ok tx ∧
          t = [EngineCall.tx c req ops] ∧ r.json = tx.doc ∧
          (containsKey tx.doc "MessageToSign" = false →
            containsKey r.json "MessageToSign" = false)) ∧
    (∀ (c : Session) (engine : Engine)
        (publicPoolIndex status operatorFee minOperatorShareRate nonce : Int),
      (∀ (s : Session) (req : EngineReq) (ops : Option Int),
          engine.run s req ops ≠ EngineBehavior.fail "") →
      ∀ (r : TxResult) (t : List EngineCall),
        Mobile.SignUpdatePublicPool (some c) engine publicPoolIndex status operatorFee
            minOperatorShareRate nonce = (some r, t) →
        r.error = "" →
        ∃ (tx : TxObject) (req : EngineReq) (ops : Option Int),
          engine.run c req ops = EngineBehavior.ok tx ∧
          t = [EngineCall.tx c req ops] ∧ r.json = tx.doc ∧
          (containsKey tx.doc "MessageToSign" = false →
            containsKey r.json "MessageToSign" = false)) ∧
    (∀ (c : Session) (engine : Engine) (publicPoolIndex shareAmount nonce : Int),
      (∀ (s : Session) (req : EngineReq) (ops : Option Int),
          engine.run s req ops ≠ EngineBehavior.fail "") →
      ∀ (r : TxResult) (t : List EngineCall),
        Mobile.SignMintShares (some c) engine publicPoolIndex shareAmount nonce =
          (some r, t) →
        r.error = "" →
        ∃ (tx : TxObject) (req : EngineReq) (ops : Option Int),
          engine.run c req ops = EngineBehavior.ok tx ∧
          t = [EngineCall.tx c req ops] ∧ r.json = tx.doc ∧
          (containsKey tx.doc "MessageToSign" = false →
            containsKey r.json "MessageToSign" = false)) ∧
    (∀ (c : Session) (engine : Engine) (publicPoolIndex shareAmount nonce : Int),
      (∀ (s : Session) (req : EngineReq) (ops : Option Int),
          engine.run s req ops ≠ EngineBehavior.fail "") →
      ∀ (r : TxResult) (t : List EngineCall),
        Mobile.SignBurnShares (some c) engine publicPoolIndex shareAmount nonce =
          (some r, t) →
        r.error = "" →
        ∃ (tx : TxObject) (req : EngineReq) (ops : Option Int),
          engine.run c req ops = EngineBehavior.ok tx ∧
          t = [EngineCall.tx c req ops] ∧ r.json = tx.doc ∧
          (containsKey tx.doc "MessageToSign" = false →
            containsKey r.json "MessageToSign" = false)) ∧
    (∀ (c : Session) (engine : Engine)
        (marketIndex initialMarginFraction marginMode nonce : Int),
      (∀ (s : Session) (req : EngineReq) (ops : Option Int),
          engine.run s req ops ≠ EngineBehavior.fail "") →
      ∀ (r : TxResult) (t : List EngineCall),
        Mobile.SignUpdateLeverage (some c) engine marketIndex initialMarginFraction
            marginMode nonce = (some r, t) →
        r.error = "" →
        ∃ (tx : TxObject) (req : EngineReq) (ops : Option Int),
          engine.run c req ops = EngineBehavior.ok tx ∧
          t = [EngineCall.tx c req ops] ∧ r.json = tx.doc ∧
          (containsKey tx.doc "MessageToSign" = false →
            containsKey r.json "MessageToSign" = false)) ∧
    (∀ (c : Session) (engine : Engine) (marketIndex usdcAmount direction nonce : Int),
      (∀ (s : Session) (req : EngineReq) (ops : Option Int),
          engine.run s req ops ≠ EngineBehavior.fail "") →
      ∀ (r : TxResult) (t : List EngineCall),
        Mobile.SignUpdateMargin (some c) engine marketIndex usdcAmount direction nonce =
          (some r, t) →
        r.error = "" →
        ∃ (tx : TxObject) (req : EngineReq) (ops : Option Int),
          engine.run c req ops = EngineBehavior.ok tx ∧
          t = [EngineCall.tx c req ops] ∧ r.json = tx.doc ∧
          (containsKey tx.doc "MessageToSign" = false →
            containsKey r.json "MessageToSign" = false)) := by
  refine ⟨?_, ?_, ?_, ?_, ?_, ?_, ?_, ?_, ?_, ?_, ?_, ?_, ?_, ?_, ?_⟩
  · intro c engine pubKey nonce hfail r t heq herr
    rcases hd : hexutilDecode pubKey with e | bs
    · simp [Mobile.SignChangePubKey, hd] at heq
      obtain ⟨h1, h2⟩ := heq
      subst h1
      simp only [] at herr
      exact absurd herr (hexutilDecode_error_ne _ _ hd)
    · by_cases hl : bs.length = 40
      · simp [Mobile.SignChangePubKey, hd, hl] at heq
        obtain ⟨tx, hE, hr, ht⟩ :=
          runTxWithMessage_inv _ _ _ _ _ _ (hfail _ _ _) heq herr
        subst hr
        exact ⟨tx, _, _, hE, ht, rfl, containsKey_setField _ _ _⟩
      · simp [Mobile.SignChangePubKey, hd, hl] at heq
        obtain ⟨h1, h2⟩ := heq
        subst h1
        simp only [] at herr
        exact absurd herr (str_append_ne_empty _ _ (by decide))
  · intro c engine toA amt fee memo nonce hfail r t heq herr
    by_cases hm : memo.length = 32
    · simp [Mobile.SignTransfer, hm] at heq
      obtain ⟨tx, hE, hr, ht⟩ :=
        runTxWithMessage_inv _ _ _ _ _ _ (hfail _ _ _) heq herr
      subst hr
      exact ⟨tx, _, _, hE, ht, rfl, containsKey_setField _ _ _⟩
    · simp [Mobile.SignTransfer, hm] at heq
      obtain ⟨h1, h2⟩ := heq
      subst h1
      simp only [] at herr
      exact absurd herr (by decide)
  · intro c engine nowMilli mi coi ba p ia ot tif ro tp oe nonce hfail r t heq herr
    simp only [Mobile.SignCreateOrder] at heq
    obtain ⟨tx, hE, hr, ht⟩ := runTx_inv _ _ _ _ _ _ (hfail _ _ _) heq herr
    subst hr
    exact ⟨tx, _, _, hE, ht, rfl, fun hkey => hkey⟩
  · intro c engine nowMilli gt oj nonce hfail r t heq herr
    rcases oj with e | ordersData
    · simp [Mobile.SignCreateGroupedOrders] at heq
      obtain ⟨h1, h2⟩ := heq
      subst h1
      simp only [] at herr
      exact absurd herr (str_append_ne_empty _ _ (by decide))
    · rcases hc : convertOrders nowMilli 0 ordersData with e | orders
      · simp [Mobile.SignCreateGroupedOrders, hc] at heq
        obtain ⟨h1, h2⟩ := heq
        subst h1
        simp only [] at herr
        exact absurd herr (convertOrders_error_ne _ _ _ _ hc)
      · simp [Mobile.SignCreateGroupedOrders, hc] at heq
        obtain ⟨tx, hE, hr, ht⟩ := runTx_inv _ _ _ _ _ _ (hfail _ _ _) heq herr
        subst hr
        exact ⟨tx, _, _, hE, ht, rfl, fun hkey => hkey⟩
  · intro c engine mi oi nonce hfail r t heq herr
    simp only [Mobile.SignCancelOrder] at heq
    obtain ⟨tx, hE, hr, ht⟩ := runTx_inv _ _ _ _ _ _ (hfail _ _ _) heq herr
    subst hr
    exact ⟨tx, _, _, hE, ht, rfl, fun hkey => hkey⟩
  · intro c engine amt nonce hfail r t heq herr
    simp only [Mobile.SignWithdraw] at heq
    obtain ⟨tx, hE, hr, ht⟩ := runTx_inv _ _ _ _ _ _ (hfail _ _ _) heq herr
    subst hr
    exact ⟨tx, _, _, hE, ht, rfl, fun hkey => hkey⟩
  · intro c engine nonce hfail r t heq herr
    simp only [Mobile.SignCreateSubAccount] at heq
    obtain ⟨tx, hE, hr, ht⟩ := runTx_inv _ _ _ _ _ _ (hfail _ _ _) heq herr
    subst hr
    exact ⟨tx, _, _, hE, ht, rfl, fun hkey => hkey⟩
  · intro c engine tif time nonce hfail r t heq herr
    simp only [Mobile.SignCancelAllOrders] at heq
    obtain ⟨tx, hE, hr, ht⟩ := runTx_inv _ _ _ _ _ _ (hfail _ _ _) heq herr
    subst hr
    exact ⟨tx, _, _, hE, ht, rfl, fun hkey => hkey⟩
  · intro c engine mi idx ba p tp nonce hfail r t heq herr
    simp only [Mobile.SignModifyOrder] at heq
    obtain ⟨tx, hE, hr, ht⟩ := runTx_inv _ _ _ _ _ _ (hfail _ _ _) heq herr
    subst hr
    exact ⟨tx, _, _, hE, ht, rfl, fun hkey => hkey⟩
  · intro c engine a b c2 nonce hfail r t heq herr
    simp only [Mobile.SignCreatePublicPool] at heq
    obtain ⟨tx, hE, hr, ht⟩ := runTx_inv _ _ _ _ _ _ (hfail _ _ _) heq herr
    subst hr
    exact ⟨tx, _, _, hE, ht, rfl, fun hkey => hkey⟩
  · intro c engine ppi stt oper mosr nonce hfail r t heq herr
    simp only [Mobile.SignUpdatePublicPool] at heq
    obtain ⟨tx, hE, hr, ht⟩ := runTx_inv _ _ _ _ _ _ (hfail _ _ _) heq herr
    subst hr
    exact ⟨tx, _, _, hE, ht, rfl, fun hkey => hkey⟩
  · intro c engine ppi sa nonce hfail r t heq herr
    simp only [Mobile.SignMintShares] at heq
    obtain ⟨tx, hE, hr, ht⟩ := runTx_inv _ _ _ _ _ _ (hfail _ _ _) heq herr
    subst hr
    exact ⟨tx, _, _, hE, ht, rfl, fun hkey => hkey⟩
  · intro c engine ppi sa nonce hfail r t heq herr
    simp only [Mobile.SignBurnShares] at heq
    obtain ⟨tx, hE, hr, ht⟩ := runTx_inv _ _ _ _ _ _ (hfail _ _ _) heq herr
    subst hr
    exact ⟨tx, _, _, hE, ht, rfl, fun hkey => hkey⟩
  · intro c engine mi imf mm nonce hfail r t heq herr
    simp only [Mobile.SignUpdateLeverage] at heq
    obtain ⟨tx, hE, hr, ht⟩ := runTx_inv _ _ _ _ _ _ (hfail _ _ _) heq herr
    subst hr
    exact ⟨tx, _, _, hE, ht, rfl, fun hkey => hkey⟩
  · intro c engine mi amt dir nonce hfail r t heq herr
    simp only [Mobile.SignUpdateMargin] at heq
    obtain ⟨tx, hE, hr, ht⟩ := runTx_inv _ _ _ _ _ _ (hfail _ _ _) heq herr
    subst hr
    exact ⟨tx, _, _, hE, ht, rfl, fun hkey => hkey⟩

/-- Witness for C6: a successful transfer against the always-succeeding
engine carries the MessageToSign field. -/
theorem c6_message_to_sign_augmentation_witness :
    ∃ (tx : TxObject) (req : EngineReq) (ops : Option Int),
      okEngine.run s1 req ops = EngineBehavior.ok tx ∧
      ([EngineCall.tx s1 (EngineReq.transfer 0 0 0 memo32) (some 5)] :
          List EngineCall) = [EngineCall.tx s1 req ops] ∧
      ({ json := [("MessageToSign", "")], error := "" } : TxResult).json =
        setField tx.doc "MessageToSign" tx.l1Body ∧
      containsKey ({ json := [("MessageToSign", "")], error := "" } : TxResult).json
        "MessageToSign" = true :=
  c6_message_to_sign_augmentation.2.1 s1 okEngine 0 0 0 memo32 5
    (by intro s req ops; simp [okEngine])
    { json := [("MessageToSign", "")], error := "" }
    [EngineCall.tx s1 (EngineReq.transfer 0 0 0 memo32) (some 5)]
    (by decide) (by decide)

end LighterGo
